import Mathlib

/-!
Verification of the tax-lien scraping pipeline.

Shallow embedding of the extraction core of the repository:
`src/lib/scrapers/BaseScraper.ts`, `src/lib/scrapers/FultonScraper.ts`,
`src/lib/scrapers/ClaytonScraper.ts`, `src/lib/scrapers/CobbScraper.ts`,
`src/lib/utils/pdfParse.ts` and the enrichment service.

Strings are modelled on `List Char` (the sources only process ASCII
payloads, where JavaScript UTF-16 `length` agrees with character count).
JavaScript numbers are modelled by `JsNum` (rationals plus NaN and the
infinities); the inputs handled by the parsers stay within exactly
representable decimal values, so rational arithmetic is faithful.
-/

/-- The JavaScript `\s` character class (ECMA-262 WhiteSpace and
LineTerminator), used by `trim`, `split(/\s+/)` and regex `\s`. -/
def isJsWs (c : Char) : Bool :=
  c = ' ' || c = '\t' || c = '\n' || c.toNat = 11 || c.toNat = 12 || c = '\r' ||
  c.toNat = 0xA0 || c.toNat = 0x1680 ||
  (0x2000 ≤ c.toNat && c.toNat ≤ 0x200A) ||
  c.toNat = 0x2028 || c.toNat = 0x2029 || c.toNat = 0x202F ||
  c.toNat = 0x205F || c.toNat = 0x3000 || c.toNat = 0xFEFF

/-- ASCII decimal digit, JavaScript regex `\d`. -/
def isDigitCh (c : Char) : Bool := c.isDigit

/-- JavaScript `String.prototype.trim` on char lists. -/
def jsTrimL (l : List Char) : List Char :=
  ((l.dropWhile isJsWs).reverse.dropWhile isJsWs).reverse

/-- JavaScript `String.prototype.trim`. -/
def jsTrim (s : String) : String := String.mk (jsTrimL s.data)

/-- Lower-casing as used by `toLowerCase` (sources are ASCII). -/
def lowerStr (s : String) : String := String.mk (s.data.map Char.toLower)

/-- Helper for `includes`: does `pat` occur as a contiguous run in `l`? -/
def inclGo (pat : List Char) : List Char → Bool
  | [] => pat.isPrefixOf []
  | c :: t => pat.isPrefixOf (c :: t) || inclGo pat t

/-- JavaScript `String.prototype.includes`. -/
def strIncludes (s pat : String) : Bool := inclGo pat.data s.data

/-- JavaScript `String.prototype.split` with a single-character separator
string; always returns at least one element. -/
def splitCharGo (sep : Char) : List Char → List Char → List (List Char)
  | [], acc => [acc.reverse]
  | c :: rest, acc =>
      if c = sep then acc.reverse :: splitCharGo sep rest []
      else splitCharGo sep rest (c :: acc)

/-- JavaScript `s.split(sep)` for a one-character separator. -/
def splitChar (sep : Char) (s : String) : List String :=
  (splitCharGo sep s.data []).map String.mk

/-- JavaScript `s.split(/\s{k,}/)`: split at each maximal whitespace run of
length at least `k`; shorter runs stay inside tokens.  `fuel` bounds the
recursion (callers pass the input length plus one, which always suffices). -/
def splitWsMinGo (k : Nat) : Nat → List Char → List Char → List (List Char)
  | 0, l, acc => [(acc.reverse ++ l)]
  | _ + 1, [], acc => [acc.reverse]
  | fuel + 1, c :: rest, acc =>
      if isJsWs c then
        let run := (c :: rest).takeWhile isJsWs
        let rest2 := (c :: rest).dropWhile isJsWs
        if k ≤ run.length then acc.reverse :: splitWsMinGo k fuel rest2 []
        else splitWsMinGo k fuel rest2 (run.reverse ++ acc)
      else c :: acc |> (fun acc2 => splitWsMinGo k fuel rest acc2)

/-- JavaScript `s.split(/\s{k,}/)`. -/
def splitWsMin (k : Nat) (s : String) : List String :=
  (splitWsMinGo k (s.data.length + 1) s.data []).map String.mk

/-- JavaScript `s.split(/\s+/)`. -/
def jsSplitWsRuns (s : String) : List String := splitWsMin 1 s

/-- Join a list of strings with single spaces, JavaScript `arr.join(" ")`. -/
def joinSp (l : List String) : String := String.intercalate " " l

/-- JavaScript numbers: rationals extended with NaN and signed infinity.
The parsers only produce exactly representable decimal values, so the
rational carrier is faithful for them. -/
inductive JsNum where
  | nan : JsNum
  | posInf : JsNum
  | negInf : JsNum
  | num (q : ℚ) : JsNum
  deriving DecidableEq, Repr

/-- Numeric value of a digit list read in base 10. -/
def digitsVal (l : List Char) : Nat :=
  l.foldl (fun acc c => 10 * acc + (c.toNat - '0'.toNat)) 0

/-- Does the list start with the literal `Infinity` (case sensitive, as in
JavaScript `parseFloat`)? -/
def isInfLiteral (l : List Char) : Bool :=
  "Infinity".data.isPrefixOf l

/-- Parse the optional exponent part `e`/`E` sign? digits of a JavaScript
decimal literal; an ill-formed exponent is not consumed (value `0`). -/
def jsExponentValue (l : List Char) : ℤ :=
  match l with
  | 'e' :: r => jsExponentSigned r
  | 'E' :: r => jsExponentSigned r
  | _ => 0
where
  jsExponentSigned (r : List Char) : ℤ :=
    match r with
    | '-' :: r2 =>
        let ds := r2.takeWhile isDigitCh
        if ds.isEmpty then 0 else -(digitsVal ds : ℤ)
    | '+' :: r2 =>
        let ds := r2.takeWhile isDigitCh
        if ds.isEmpty then 0 else (digitsVal ds : ℤ)
    | _ =>
        let ds := r.takeWhile isDigitCh
        if ds.isEmpty then 0 else (digitsVal ds : ℤ)

/-- The value of a decimal literal with integer digits `intDs`, fraction
digits `fracDs` and exponent `e`. -/
def decValue (intDs fracDs : List Char) (e : ℤ) : ℚ :=
  ((digitsVal intDs : ℚ) + (digitsVal fracDs : ℚ) / (10 : ℚ) ^ fracDs.length) *
    (10 : ℚ) ^ e

/-- The unsigned decimal-literal part of JavaScript `parseFloat`: longest
prefix `digits ('.' digits?)? exponent?` or `'.' digits exponent?`; `none`
when no digit can be read. -/
def jsDecimalValue (r : List Char) : Option ℚ :=
  let intDs := r.takeWhile isDigitCh
  let rest := r.dropWhile isDigitCh
  let fracDs :=
    match rest with
    | '.' :: r2 => r2.takeWhile isDigitCh
    | _ => []
  let afterMant :=
    match rest with
    | '.' :: r2 => r2.dropWhile isDigitCh
    | _ => rest
  if intDs.isEmpty && fracDs.isEmpty then none
  else some (decValue intDs fracDs (jsExponentValue afterMant))

/-- JavaScript `parseFloat` after the optional sign has been removed. -/
def jsParseFloatNoSign (r : List Char) (neg : Bool) : JsNum :=
  if isInfLiteral r then (if neg then .negInf else .posInf)
  else
    match jsDecimalValue r with
    | none => .nan
    | some q => .num (if neg then -q else q)

/-- JavaScript `parseFloat`: skip leading whitespace, read an optional
sign, then the longest valid decimal (or `Infinity`) prefix; NaN when no
numeric prefix exists. -/
def jsParseFloat (l : List Char) : JsNum :=
  match l.dropWhile isJsWs with
  | '-' :: r => jsParseFloatNoSign r true
  | '+' :: r => jsParseFloatNoSign r false
  | r => jsParseFloatNoSign r false

/-- The `value.replace(/[$,\s]/g, "")` cleaning step of `parseCurrency`. -/
def currencyClean (value : String) : List Char :=
  value.data.filter (fun c => !(c = '$' || c = ',' || isJsWs c))

/-- `BaseScraper.parseCurrency`: strip `$`, `,` and whitespace everywhere
(`value.replace(/[$,\s]/g, "")`), `parseFloat` the remainder, and return
`0` when the result is NaN. -/
def parseCurrency (value : String) : JsNum :=
  match jsParseFloat (currencyClean value) with
  | .nan => .num 0
  | v => v

/-- Result type of `BaseScraper.parseAddress`. -/
structure AddressParts where
  address : String
  city : Option String
  zip : Option String
  deriving DecidableEq, Repr

/-- `BaseScraper.parseAddress`: split on commas; the street address is the
trimmed first segment, falling back to the whole input when that trim is
empty (JavaScript `parts[0]?.trim() || address`); city/zip come from the
second segment when it has at least two whitespace-separated tokens. -/
def parseAddress (address : String) : AddressParts :=
  let parts := splitChar ',' address
  let mainAddress :=
    let t := jsTrim (parts.getD 0 "")
    if t = "" then address else t
  if 1 < parts.length then
    let cityZip := jsTrim (parts.getD 1 "")
    let cityZipParts := jsSplitWsRuns cityZip
    if 2 ≤ cityZipParts.length then
      { address := mainAddress
        city := some (joinSp (cityZipParts.dropLast))
        zip := cityZipParts.getLast? }
    else { address := mainAddress, city := none, zip := none }
  else { address := mainAddress, city := none, zip := none }

/-- The candidate lien record (`ScrapedTaxLien` in `BaseScraper.ts`). -/
structure ScrapedTaxLien where
  parcel_id : String
  owner_name : String
  property_address : String
  city : Option String
  zip : Option String
  tax_amount_due : JsNum
  sale_date : Option String
  deriving DecidableEq, Repr

/-!
## A small backtracking matcher for the JavaScript regexes of the scrapers

Every regex in the scrapers is a sequence of character-class repetitions,
literals, optional/alternation groups and starred groups, with no nested
captures that cross element boundaries.  `RElem` is that shape; `mSeq`
enumerates the per-element consumed lengths of all matches of a sequence
against a prefix of the input, in exactly the JavaScript preference order
(leftmost position first, greedy repetition counts first, alternatives in
source order, and an optional group tried before it is skipped), so the
head of the list is the JavaScript match.  `fuel` only bounds recursion
depth; `regexFuel` always suffices for it.
-/

/-- One element of an embedded regex. -/
inductive RElem where
  | cls (p : Char → Bool) (mn : Nat) (mx : Option Nat)
  | lit (s : List Char) (ci : Bool)
  | grp (alts : List (List RElem)) (req : Bool)
  | star (sub : List RElem)

/-- Does the literal `s` start `l` (case-insensitively when `ci`)? -/
def litOk (s : List Char) (ci : Bool) (l : List Char) : Bool :=
  if ci then (s.map Char.toLower).isPrefixOf (l.map Char.toLower)
  else s.isPrefixOf l

/-- `[hi, hi-1, ..., lo]`, the greedy order of repetition counts. -/
def descRange (hi lo : Nat) : List Nat :=
  (List.range (hi + 1 - lo)).map (fun i => hi - i)


/-- All matches of the element sequence `pat` against a prefix of `l`,
as lists of consumed lengths (one entry per element), in JavaScript
backtracking preference order. -/
def mSeq (fuel : Nat) (pat : List RElem) (l : List Char) : List (List Nat) :=
  match fuel, pat with
  | 0, _ => []
  | _ + 1, [] => [[]]
  | fuel + 1, .cls p mn mx :: ps =>
      let maxRun := (l.takeWhile p).length
      let hi := min (mx.getD maxRun) maxRun
      if hi < mn then []
      else
        (descRange hi mn).flatMap (fun k =>
          (mSeq fuel ps (l.drop k)).map (fun bd => k :: bd))
  | fuel + 1, .lit s ci :: ps =>
      if litOk s ci l then (mSeq fuel ps (l.drop s.length)).map (fun bd => s.length :: bd)
      else []
  | fuel + 1, .grp alts req :: ps =>
      let withAlts :=
        alts.flatMap (fun alt =>
          (mSeq fuel alt l).flatMap (fun bd =>
            (mSeq fuel ps (l.drop bd.sum)).map (fun rest => bd.sum :: rest)))
      if req then withAlts
      else withAlts ++ (mSeq fuel ps l).map (fun bd => 0 :: bd)
  | fuel + 1, .star sub :: ps =>
      ((mSeq fuel sub l).flatMap (fun bd =>
        if bd.sum = 0 then []
        else
          (mSeq fuel (.star sub :: ps) (l.drop bd.sum)).map (fun rest =>
            match rest with
            | n :: r => (bd.sum + n) :: r
            | [] => [bd.sum])))
      ++ (mSeq fuel ps l).map (fun bd => 0 :: bd)

/-- Fuel that always covers the recursion depth of `mSeq`: every call of
`mSeq` either shrinks the pattern or (for a starred group, which must
consume at least one character per iteration) shrinks the input while
restoring the pattern, so the depth is below the pattern node count times
the input length; the constant 64 exceeds the node count of every pattern
in this file. -/
def regexFuel (_pat : List RElem) (l : List Char) : Nat :=
  64 * (l.length + 2)

/-- Matches of `pat` starting exactly at the head of `l`; with `ea` the
match must also end at the end of `l` (regex `$`). -/
def mAt (pat : List RElem) (ea : Bool) (l : List Char) : Option (List Nat) :=
  let bds := mSeq (regexFuel pat l) pat l
  let bds := if ea then bds.filter (fun bd => bd.sum = l.length) else bds
  bds.head?

/-- Leftmost search, JavaScript `String.prototype.match` without `g`:
first position (scanning left to right) admitting a match, together with
the per-element consumed lengths of the preferred match there. -/
def searchGo (pat : List RElem) (ea : Bool) : List Char → Nat → Option (Nat × List Nat)
  | l, pos =>
      match mAt pat ea l with
      | some bd => some (pos, bd)
      | none =>
          match l with
          | [] => none
          | _ :: t => searchGo pat ea t (pos + 1)

/-- JavaScript regex search with optional `^` / `$` anchors. -/
def jsSearch (pat : List RElem) (sa ea : Bool) (l : List Char) : Option (Nat × List Nat) :=
  if sa then (mAt pat ea l).map (fun bd => (0, bd))
  else searchGo pat ea l 0

/-- JavaScript `regex.test` / truthiness of `String.prototype.match`. -/
def jsTest (pat : List RElem) (sa ea : Bool) (l : List Char) : Bool :=
  (jsSearch pat sa ea l).isSome

/-- The whole matched substring of a search result. -/
def matchedStr (l : List Char) (r : Nat × List Nat) : String :=
  String.mk ((l.drop r.1).take r.2.sum)

/-! Character-class and element shorthands for the concrete patterns. -/

/-- Regex `\d{mn,mx}`. -/
def dRep (mn mx : Nat) : RElem := .cls isDigitCh mn (some mx)

/-- Regex `\d+`. -/
def dPlus : RElem := .cls isDigitCh 1 none

/-- Regex `\s*`. -/
def wsStar : RElem := .cls isJsWs 0 none

/-- Regex `\s+`. -/
def wsPlus : RElem := .cls isJsWs 1 none

/-- Regex `[-\s]` (one dash or whitespace character). -/
def dashWs1 : RElem := .cls (fun c => c = '-' || isJsWs c) 1 (some 1)

/-- Regex `[A-Z]?` under the `i` flag. -/
def letterOpt : RElem := .cls Char.isAlpha 0 (some 1)

/-- Regex `[A-Z0-9]` under the `i` flag. -/
def alnum1 : RElem := .cls (fun c => c.isAlpha || c.isDigit) 1 (some 1)

/-- The literal dash element. -/
def litDash : RElem := .lit ['-'] false

/-!
## FultonScraper: patterns, normalization, row reconstruction
-/

/-- Pattern 1 of `looksLikeParcelId`, also the parcel regex of
`parseParcelOnlyLine`:
`\d{2}[A-Z]?\s*[-\s]\s*\d{3,6}\s*[-\s]\s*\d{2,4}\s*[-\s]\s*\d{2,3}\s*[-\s]\s*\d` with `i`. -/
def fulP1 : List RElem :=
  [dRep 2 2, letterOpt, wsStar, dashWs1, wsStar, dRep 3 6, wsStar, dashWs1, wsStar,
   dRep 2 4, wsStar, dashWs1, wsStar, dRep 2 3, wsStar, dashWs1, wsStar, dRep 1 1]

/-- Pattern 2 of `looksLikeParcelId`:
`\d{2}[A-Z]?\s+\d{4}\s+\d{4}\s+\d{3}\s+\d` with `i`. -/
def fulP2 : List RElem :=
  [dRep 2 2, letterOpt, wsPlus, dRep 4 4, wsPlus, dRep 4 4, wsPlus, dRep 3 3, wsPlus, dRep 1 1]

/-- Pattern 3 of `looksLikeParcelId`:
`\d{2}[A-Z]?-\d{4}-\d{4}-\d{3}-\d` with `i`. -/
def fulP3 : List RElem :=
  [dRep 2 2, letterOpt, litDash, dRep 4 4, litDash, dRep 4 4, litDash, dRep 3 3, litDash, dRep 1 1]

/-- Pattern 4 of `looksLikeParcelId`:
`\d{2}[A-Z0-9]\s*[-\s]\s*\d{3,6}\s*[-\s]\s*\d{2,4}\s*[-\s]\s*\d{2,3}\s*[-\s]\s*\d` with `i`. -/
def fulP4 : List RElem :=
  [dRep 2 2, alnum1, wsStar, dashWs1, wsStar, dRep 3 6, wsStar, dashWs1, wsStar,
   dRep 2 4, wsStar, dashWs1, wsStar, dRep 2 3, wsStar, dashWs1, wsStar, dRep 1 1]

/-- Pattern 5 of `looksLikeParcelId`:
`\d{2}[A-Z0-9]\s+\d{4}\s+\d{4}\s+\d{3}\s+\d` with `i`. -/
def fulP5 : List RElem :=
  [dRep 2 2, alnum1, wsPlus, dRep 4 4, wsPlus, dRep 4 4, wsPlus, dRep 3 3, wsPlus, dRep 1 1]

/-- Pattern 6 of `looksLikeParcelId`, also the parcel regex of the
no-delimiter branch of `parseFultonTableRow`:
`\d{2}[A-Z0-9]\s*[-\s]\s*\d{3,6}\s*[-\s]\s*\d{2,4}\s*[-\s]\s*\d{2,3}\s*[-\s]\s*[0-9OI]` with `i`. -/
def fulP6 : List RElem :=
  [dRep 2 2, alnum1, wsStar, dashWs1, wsStar, dRep 3 6, wsStar, dashWs1, wsStar,
   dRep 2 4, wsStar, dashWs1, wsStar, dRep 2 3, wsStar, dashWs1, wsStar,
   .cls (fun c => c.isDigit || c = 'O' || c = 'o' || c = 'I' || c = 'i') 1 (some 1)]

/-- `FultonScraper.looksLikeParcelId`: any of the six OCR-tolerant parcel
patterns occurs in the line. -/
def looksLikeParcelId (line : String) : Bool :=
  [fulP1, fulP2, fulP3, fulP4, fulP5, fulP6].any (fun p => jsTest p false false line.data)

/-- The parcel-id validation regex of `parseFultonTableRow` and
`parseParcelOnlyLine`: `^\d{2}[A-Z0-9][-\s]?[A-Z0-9\s-]+$` with `i`. -/
def fulValP : List RElem :=
  [dRep 2 2, alnum1, .cls (fun c => c = '-' || isJsWs c) 0 (some 1),
   .cls (fun c => c.isAlpha || c.isDigit || isJsWs c || c = '-') 1 none]

/-- `parcelId.match(parcelIdPattern)` as a boolean. -/
def fultonIdOk (s : String) : Bool := jsTest fulValP true true s.data

/-- Sale-number regex of the no-delimiter branch: `(\d[\d\s-]{3,10}\d)\s*$`. -/
def fulSaleNumP : List RElem :=
  [dRep 1 1, .cls (fun c => c.isDigit || isJsWs c || c = '-') 3 (some 10), dRep 1 1, wsStar]

/-- Record-start regex of the pattern scan: `^(\d{4}-\d{5})\s+`. -/
def fulSaleStartP : List RElem := [dRep 4 4, litDash, dRep 5 5, wsPlus]

/-- Page-number regex `^\d+\s+OF\s+\d+$` with `i`. -/
def fulPageP : List RElem := [dPlus, wsPlus, .lit "OF".data true, dPlus]

/-- The `\s{3,}` delimiter probe of `parseFultonTableRow`. -/
def ws3P : List RElem := [.cls isJsWs 3 none]

/-- JavaScript `s.replace(/\s+/g, "-")`: each maximal whitespace run
becomes a single dash. -/
def wsToDashGo : Bool → List Char → List Char
  | _, [] => []
  | inRun, c :: rest =>
      if isJsWs c then
        (if inRun then wsToDashGo true rest else '-' :: wsToDashGo true rest)
      else c :: wsToDashGo false rest

/-- JavaScript `s.replace(/\s+/g, "-")`. -/
def wsToDash (s : String) : String := String.mk (wsToDashGo false s.data)

/-- JavaScript dash-run collapsing, `replace` of regex dash-dash-plus (global)
with a single dash: every dash run collapses to one dash. -/
def collapseDashGo : Bool → List Char → List Char
  | _, [] => []
  | prevDash, c :: rest =>
      if c = '-' then
        (if prevDash then collapseDashGo true rest else '-' :: collapseDashGo true rest)
      else c :: collapseDashGo false rest

/-- JavaScript `replace` of regex dash-dash-plus (global) with one dash. -/
def collapseDash (s : String) : String := String.mk (collapseDashGo false s.data)

/-- The whitespace-to-dash then dash-run-collapse identifier
normalization used throughout `FultonScraper`. -/
def normId (s : String) : String := collapseDash (wsToDash s)

/-- JavaScript `s.replace(/a/g, String.singleton b)` for single characters. -/
def replChar (a b : Char) (s : String) : String :=
  String.mk (s.data.map (fun c => if c = a then b else c))

/-- The OCR-misread cleanup chain applied to invalid parcel ids:
normalize whitespace and dashes, then `O` to `0`, `I` to `1`, `l` to `1`. -/
def fultonCleanId (s : String) : String :=
  replChar 'l' '1' (replChar 'I' '1' (replChar 'O' '0' (normId s)))

/-- The parcel-id validation block shared by both Fulton row parsers:
accept the id if it matches the validation pattern, otherwise try the
OCR-cleaned form, otherwise fail. -/
def fultonValidateId (parcelId : String) : Option String :=
  if fultonIdOk parcelId then some parcelId
  else
    let cleaned := fultonCleanId parcelId
    if fultonIdOk cleaned then some cleaned else none

/-- Tail of `parseFultonTableRow` after the `parts` array is assigned:
validate the parcel id, require id length at least 5 and situs length at
least 3, then build the record with defaulted owner, Atlanta city
fallback and zero amount. -/
def fultonFinalize (parcelId situs : String) (saleDate : Option String) :
    Option ScrapedTaxLien :=
  match fultonValidateId parcelId with
  | none => none
  | some pid =>
      if pid = "" || pid.length < 5 then none
      else if situs = "" || situs.length < 3 then none
      else
        let ap := parseAddress situs
        some { parcel_id := wsToDash pid
               owner_name := ""
               property_address := ap.address
               city := some (match ap.city with
                             | some c => if c = "" then "Atlanta" else c
                             | none => "Atlanta")
               zip := ap.zip
               tax_amount_due := .num 0
               sale_date := saleDate }

/-- The `parts` computation of `parseFultonTableRow`: split on pipes,
tabs or runs of three-plus spaces when present; otherwise locate the
parcel-id pattern, derive sale number and situs from the surrounding
text, failing when the situs is shorter than three characters. -/
def fultonRowParts (rowText : String) : Option (List String) :=
  if strIncludes rowText "|" then
    some (((splitChar '|' rowText).map jsTrim).filter (fun p => p.length ≠ 0))
  else if strIncludes rowText "\t" then
    some (((splitChar '\t' rowText).map jsTrim).filter (fun p => p.length ≠ 0))
  else if jsTest ws3P false false rowText.data then
    some (((splitWsMin 3 rowText).map jsTrim).filter (fun p => p.length ≠ 0))
  else
    match jsSearch fulP6 false false rowText.data with
    | some r =>
        let parcelId := normId (matchedStr rowText.data r)
        let beforeParcel := jsTrim (String.mk (rowText.data.take r.1))
        let afterParcel := jsTrim (String.mk (rowText.data.drop (r.1 + r.2.sum)))
        let saleNumber :=
          match jsSearch fulSaleNumP false true beforeParcel.data with
          | some r2 => wsToDash (matchedStr beforeParcel.data r2)
          | none => ""
        let situs := afterParcel
        if situs.length < 3 then none
        else some (if saleNumber ≠ "" then [saleNumber, parcelId, situs] else [parcelId, situs])
    | none =>
        match jsSearch fulP6 false false rowText.data with
        | none => none
        | some r =>
            let parcelId := normId (matchedStr rowText.data r)
            let afterParcel := jsTrim (String.mk (rowText.data.drop (r.1 + r.2.sum)))
            if afterParcel.length < 3 then none
            else some [parcelId, afterParcel]

/-- `FultonScraper.parseFultonTableRow`: reconstruct one candidate lien
from a row of the `SALE NUMBER | TAX PARCEL ID | SITUS` table. -/
def parseFultonTableRow (rowText : String) (saleDate : Option String) :
    Option ScrapedTaxLien :=
  match fultonRowParts rowText with
  | none => none
  | some parts =>
      if 3 ≤ parts.length then
        fultonFinalize (normId (parts.getD 1 ""))
          (jsTrim (joinSp (parts.drop 2))) saleDate
      else if parts.length = 2 then
        if looksLikeParcelId (parts.getD 0 "") then
          fultonFinalize (normId (parts.getD 0 "")) (jsTrim (parts.getD 1 "")) saleDate
        else
          fultonFinalize (normId (parts.getD 1 "")) "" saleDate
      else none

/-- `FultonScraper.parseParcelOnlyLine`: parse an OCR line that has a
parcel id but no sale number; note its laxer situs rule (`length > 3`,
else empty situs) and its missing minimum-length check. -/
def parseParcelOnlyLine (line : String) (saleDate : Option String) :
    Option ScrapedTaxLien :=
  match jsSearch fulP1 false false line.data with
  | none => none
  | some r =>
      let parcelId := normId (matchedStr line.data r)
      let afterParcel := jsTrim (String.mk (line.data.drop (r.1 + r.2.sum)))
      let situs := if 3 < afterParcel.length then afterParcel else ""
      match fultonValidateId parcelId with
      | none => none
      | some pid =>
          some { parcel_id := pid
                 owner_name := ""
                 property_address := situs
                 city := some "Atlanta"
                 zip := none
                 tax_amount_due := .num 0
                 sale_date := some (saleDate.getD "") }

/-!
## FultonScraper.parsePdf: header-anchored segmentation and pattern scan

These definitions model the text-processing part of
`FultonScraper.parsePdf` (lines after OCR cleanup): the line list, the
OCR-tolerant header detection, the per-section start-of-data scan, the
header-anchored row loop, and the pattern-scan fallback.  Sale-date
extraction from the PDF URL is outside the text pipeline and enters as
the `saleDate` parameter.
-/

/-- Header component: the line mentions the sale-number column. -/
def fulHasSaleRef (lw : String) : Bool :=
  strIncludes lw "sheriff" || (strIncludes lw "sale" && strIncludes lw "number")

/-- Header component: the line mentions the parcel-id column
(OCR-tolerantly, `id` or `1d`). -/
def fulHasParcelRef (lw : String) : Bool :=
  strIncludes lw "parcel" ||
  (strIncludes lw "tax" && (strIncludes lw "id" || strIncludes lw "1d"))

/-- Header component: the line mentions the situs column (OCR variants). -/
def fulHasSitusRef (lw : String) : Bool :=
  strIncludes lw "situs" || strIncludes lw "sttus" || strIncludes lw "s1tus"

/-- How many of the three header components the lowercased line has. -/
def fulMatchCount (lw : String) : Nat :=
  (([fulHasSaleRef lw, fulHasParcelRef lw, fulHasSitusRef lw]).filter (fun x => x)).length

/-- Split-header salvage: join the line with the next two lines and
require two of the three components in the combination. -/
def fulCombinedOk (lines : List String) (i : Nat) : Bool :=
  let combined := joinSp (((lines.drop i).take 3).map lowerStr)
  let cSale := strIncludes combined "sheriff" ||
    (strIncludes combined "sale" && strIncludes combined "number")
  let cParcel := strIncludes combined "parcel"
  let cSitus := strIncludes combined "situs" || strIncludes combined "sttus"
  2 ≤ (([cSale, cParcel, cSitus]).filter (fun x => x)).length

/-- Is line `i` detected as a Fulton table header?  Two components on the
line itself, or exactly one plus a split-header combination. -/
def fultonHeaderAt (lines : List String) (i : Nat) : Bool :=
  let lw := lowerStr (lines.getD i "")
  let mc := fulMatchCount lw
  2 ≤ mc || (mc = 1 && fulCombinedOk lines i)

/-- All header line indices, in document order (the single forward pass
of the source pushes each matching index once). -/
def fultonHeaderIndices (lines : List String) : List Nat :=
  (List.range lines.length).filter (fun i => fultonHeaderAt lines i)

/-- A line (already lowercased) that the start-of-data scan skips:
section titles, repeated headers, separator lines, header keywords. -/
def fulStartSkip (lw : String) : Bool :=
  (strIncludes lw "judicial" && (strIncludes lw "delinquent" || strIncludes lw "foreclosure")) ||
  (strIncludes lw "sheriff" && strIncludes lw "sale" && strIncludes lw "number") ||
  (lw ≠ "" && lw.data.all (fun c => isJsWs c || c = '|')) ||
  (strIncludes lw "tax parcel" || strIncludes lw "sale number" || strIncludes lw "situs")

/-- One step of the start-of-data scan of `parsePdf`: from `i`, skip
title/separator lines (moving the start just past them), stop at the
first parcel-looking line, and otherwise leave the start unchanged;
`steps` only bounds the loop and callers pass more than `lim`. -/
def fultonFindStartGo (lines : List String) (lim : Nat) :
    Nat → Nat → Nat → Nat
  | 0, _, cur => cur
  | steps + 1, i, cur =>
      if lim ≤ i then cur
      else
        let lw := lowerStr (lines.getD i "")
        if fulStartSkip lw then fultonFindStartGo lines lim steps (i + 1) (i + 1)
        else if looksLikeParcelId lw then i
        else fultonFindStartGo lines lim steps (i + 1) cur

/-- Where the data rows of the section opened by the header at
`headerIndex` start: scan at most nine lines past the header, bounded by
the next header. -/
def fultonFindStart (lines : List String) (headerIndex nextHeaderIndex : Nat) : Nat :=
  let lim := min (headerIndex + 10) nextHeaderIndex
  fultonFindStartGo lines lim (lim + 1) (headerIndex + 1) (headerIndex + 1)

/-- The parsing segments opened by the header list: each header owns the
half-open row range from its start-of-data line up to the next header
(or the end of the document for the last header). -/
def fultonSegmentsOf (lines : List String) (len : Nat) : List Nat → List (Nat × Nat)
  | [] => []
  | [h] => [(fultonFindStart lines h len, len)]
  | h :: h2 :: t => (fultonFindStart lines h h2, h2) :: fultonSegmentsOf lines len (h2 :: t)

/-- The parsing segments of the header-anchored pass of `parsePdf`. -/
def fultonSegmentRanges (lines : List String) : List (Nat × Nat) :=
  fultonSegmentsOf lines lines.length (fultonHeaderIndices lines)

/-- A row the header-anchored row loop skips: empty or separator lines,
section titles, repeated headers, page markers. -/
def fulRowSkip (line : String) : Bool :=
  line = "" || jsTrim line = "" ||
  (line ≠ "" && line.data.all (fun c => isJsWs c || c = '|')) ||
  (strIncludes (lowerStr line) "judicial" &&
    (strIncludes (lowerStr line) "delinquent" || strIncludes (lowerStr line) "foreclosure")) ||
  (strIncludes (lowerStr line) "sheriff" && strIncludes (lowerStr line) "sale" &&
    strIncludes (lowerStr line) "number") ||
  (strIncludes (lowerStr line) "of" && strIncludes (lowerStr line) "2") ||
  jsTest fulPageP true true line.data

/-- The header-anchored pass: for every segment, parse each non-skipped
row in its range with `parseFultonTableRow`. -/
def fultonHeaderPass (lines : List String) (saleDate : Option String) :
    List ScrapedTaxLien :=
  (fultonSegmentRanges lines).flatMap (fun se =>
    (List.range' se.1 (se.2 - se.1)).filterMap (fun i =>
      let line := lines.getD i ""
      if fulRowSkip line then none else parseFultonTableRow line saleDate))

/-- The apostrophe character (39), kept out of string literals. -/
def apos : Char := Char.ofNat 39

/-- The literal `sheriff's` tested by the pattern scan. -/
def sheriffPoss : String := "sheriff" ++ String.singleton apos ++ "s"

/-- A line the pattern scan treats as a section header or page number. -/
def fulScanSkip (line : String) : Bool :=
  strIncludes (lowerStr line) "judicial" ||
  strIncludes (lowerStr line) "non-judicial" ||
  strIncludes (lowerStr line) sheriffPoss ||
  jsTest fulPageP true true line.data

/-- Flush the accumulated multi-line record of the pattern scan: parse
it, and keep the lien when its parcel id is unseen. -/
def fultonFlush (cur : String) (saleDate : Option String) (seen : List String)
    (acc : List ScrapedTaxLien) : List String × List ScrapedTaxLien :=
  match parseFultonTableRow (jsTrim cur) saleDate with
  | some l =>
      if seen.contains l.parcel_id then (seen, acc)
      else (seen ++ [l.parcel_id], acc ++ [l])
  | none => (seen, acc)

/-- The pattern-scan loop of `parsePdf` (state: remaining lines, the
accumulated `currentRecord`, seen parcel ids, liens found so far).  Note
that the source never flushes `currentRecord` after the loop ends. -/
def fultonPatternScanGo (saleDate : Option String) :
    List String → String → List String → List ScrapedTaxLien → List ScrapedTaxLien
  | [], _, _, acc => acc
  | line :: rest, cur, seen, acc =>
      if line = "" || jsTrim line = "" then
        fultonPatternScanGo saleDate rest cur seen acc
      else if fulScanSkip line then
        if jsTrim cur ≠ "" then
          let sa := fultonFlush cur saleDate seen acc
          fultonPatternScanGo saleDate rest "" sa.1 sa.2
        else fultonPatternScanGo saleDate rest cur seen acc
      else if jsTest fulSaleStartP true false line.data then
        let sa := if jsTrim cur ≠ "" then fultonFlush cur saleDate seen acc else (seen, acc)
        fultonPatternScanGo saleDate rest line sa.1 sa.2
      else if looksLikeParcelId line then
        let sa := if jsTrim cur ≠ "" then fultonFlush cur saleDate seen acc else (seen, acc)
        let lien :=
          match parseFultonTableRow (jsTrim line) saleDate with
          | some l => some l
          | none => parseParcelOnlyLine (jsTrim line) saleDate
        match lien with
        | some l =>
            if sa.1.contains l.parcel_id then
              fultonPatternScanGo saleDate rest line sa.1 sa.2
            else
              fultonPatternScanGo saleDate rest "" (sa.1 ++ [l.parcel_id]) (sa.2 ++ [l])
        | none => fultonPatternScanGo saleDate rest line sa.1 sa.2
      else if cur ≠ "" then
        fultonPatternScanGo saleDate rest (cur ++ " " ++ line) seen acc
      else fultonPatternScanGo saleDate rest cur seen acc

/-- The pattern-scan fallback of `FultonScraper.parsePdf`. -/
def fultonPatternScan (lines : List String) (saleDate : Option String) :
    List ScrapedTaxLien :=
  fultonPatternScanGo saleDate lines "" [] []

/-- The text-parsing pipeline of `FultonScraper.parsePdf` on cleaned
text: split into trimmed non-empty lines, run the header-anchored pass
when a header exists, and fall back to (or supplement with) the pattern
scan when no header was found or no lien was parsed. -/
def fultonParsePdfText (text : String) (saleDate : Option String) :
    List ScrapedTaxLien :=
  let lines := ((splitChar '\n' text).map jsTrim).filter (fun l => l.length ≠ 0)
  let headerIndices := fultonHeaderIndices lines
  let liens1 := if headerIndices.length ≠ 0 then fultonHeaderPass lines saleDate else []
  if liens1.length = 0 || headerIndices.length = 0 then
    liens1 ++ fultonPatternScan lines saleDate
  else liens1

/-!
## FultonScraper.cleanOcrText
-/

/-- The first line-ending replace of `cleanOcrText`: each CRLF pair
becomes one newline (left to right, non-overlapping). -/
def replCRLF : List Char → List Char
  | [] => []
  | [c] => [c]
  | c1 :: c2 :: rest =>
      if c1 = '\r' && c2 = '\n' then '\n' :: replCRLF rest
      else c1 :: replCRLF (c2 :: rest)

/-- The second line-ending replace: every remaining CR becomes a newline. -/
def replCR (l : List Char) : List Char :=
  l.map (fun c => if c = '\r' then '\n' else c)

/-- One global digit-context replace of `cleanOcrText`, e.g. digit `O`
digit becomes digit `0` digit.  As in JavaScript `replace`, scanning
resumes after each match, so the trailing digit of a match is not
available as leading context of the next one. -/
def fixDigitPair (mid rep : Char) : List Char → List Char
  | [] => []
  | [c] => [c]
  | [c1, c2] => [c1, c2]
  | c1 :: c2 :: c3 :: rest =>
      if isDigitCh c1 && c2 = mid && isDigitCh c3 then
        c1 :: rep :: c3 :: fixDigitPair mid rep rest
      else c1 :: fixDigitPair mid rep (c2 :: c3 :: rest)

/-- Non-newline whitespace, the regex class of whitespace without `\n`. -/
def isNNWs (c : Char) : Bool := isJsWs c && !(c = '\n')

/-- The whitespace collapse of `cleanOcrText`: each maximal run of
non-newline whitespace becomes a single space. -/
def wsCollapseGo : Bool → List Char → List Char
  | _, [] => []
  | inRun, c :: rest =>
      if isNNWs c then
        (if inRun then wsCollapseGo true rest else ' ' :: wsCollapseGo true rest)
      else c :: wsCollapseGo false rest

/-- The control characters stripped by `cleanOcrText`
(x00 to x08, x0B, x0C, x0E to x1F). -/
def isStrippedCtrl (c : Char) : Bool :=
  c.toNat ≤ 8 || c.toNat = 11 || c.toNat = 12 || (14 ≤ c.toNat && c.toNat ≤ 31)

/-- The cleanup chain of `cleanOcrText` on char lists: normalize line
endings, fix digit-adjacent OCR misreads of `O`, `l`, `I`, collapse
non-newline whitespace runs to single spaces, strip control characters. -/
def cleanOcrL (l : List Char) : List Char :=
  (wsCollapseGo false
    (fixDigitPair 'I' '1'
      (fixDigitPair 'l' '1'
        (fixDigitPair 'O' '0'
          (replCR (replCRLF l)))))).filter (fun c => !isStrippedCtrl c)

/-- `FultonScraper.cleanOcrText`. -/
def cleanOcrText (text : String) : String :=
  String.mk (cleanOcrL text.data)

/-!
## ClaytonScraper.parseClaytonTableRow
-/

/-- The column-order record passed to `parseClaytonTableRow`
(indexes may be -1 for a missing column). -/
structure ClaytonColumnOrder where
  date : Int
  parcelName : Int
  propertyLocation : Int
  years : Int
  fairMarketValue : Int
  cryOutBid : Int
  deriving DecidableEq, Repr

/-- Regex `[A-Z]` without the `i` flag. -/
def upper1 : RElem := .cls Char.isUpper 1 (some 1)

/-- The Clayton date regex, with its three groups at elements 0, 2, 4
when used for ISO conversion and a single overall group when used for
column re-derivation. -/
def clayDateP : List RElem :=
  [dRep 2 2, .lit ['/'] false, dRep 2 2, .lit ['/'] false, dRep 4 4]

/-- Clayton parcel-only regex without flags:
`\d{5}[A-Z]\s+[A-Z]\d{3}` with an optional ` [A-Z]\d{2}` group. -/
def clayParcelP : List RElem :=
  [dRep 5 5, upper1, wsPlus, upper1, dRep 3 3,
   .grp [[wsPlus, upper1, dRep 2 2]] false]

/-- Clayton street-address regex with the `i` flag: digits, whitespace, a
letter, a letter-or-space run, and one of the street-type suffixes (the
short list of the column re-derivation branch). -/
def clayAddressP : List RElem :=
  [dPlus, wsPlus, .cls Char.isAlpha 1 (some 1), .cls (fun c => c.isAlpha || isJsWs c) 1 none,
   .grp (["DR", "RD", "ST", "AVE", "CT", "LN", "BLVD", "PKWY", "WAY", "CIR",
          "TRCE"].map (fun w => [RElem.lit w.data true])) true]

/-- Clayton street-address regex of the pattern fallback branch, with the
longer suffix list. -/
def clayAddressLongP : List RElem :=
  [dPlus, wsPlus, .cls Char.isAlpha 1 (some 1), .cls (fun c => c.isAlpha || isJsWs c) 1 none,
   .grp (["DR", "RD", "ST", "AVE", "CT", "LN", "BLVD", "PKWY", "WAY", "CIR",
          "TRCE", "VILLAGE", "DRIVE", "STREET", "ROAD", "AVENUE", "BOULEVARD",
          "PARKWAY", "COURT", "CIRCLE"].map (fun w => [RElem.lit w.data true])) true]

/-- Clayton years regex `\d{4}(?:,\s*\d{4})*`. -/
def clayYearsP : List RElem :=
  [dRep 4 4, .star [.lit [','] false, wsStar, dRep 4 4]]

/-- Clayton end-anchored amount regex `([\d,]+\.\d{2})$`. -/
def clayAmountEndP : List RElem :=
  [.cls (fun c => c.isDigit || c = ',') 1 none, .lit ['.'] false, dRep 2 2]

/-- Clayton parcel-and-owner regex (no flags):
the parcel group (elements 0 to 5), ` /`, then the owner group (elements
8 and 9: a run of capitals, spaces and ampersands with an optional
company/suffix literal). -/
def clayParcelNameP : List RElem :=
  [dRep 5 5, upper1, wsPlus, upper1, dRep 3 3,
   .grp [[wsPlus, upper1, dRep 2 2]] false,
   wsPlus, .lit ['/'] false,
   .cls (fun c => c.isUpper || isJsWs c || c = '&') 1 none,
   .grp (["LLC", "INC", "CORP", "JR", "SR"].map (fun w => [RElem.lit w.data false])) false]

/-- The substring of the group spanning pattern elements `[a, b)` of a
search result at position `idx` with per-element consumed lengths `bd`. -/
def groupOfBd (l : List Char) (idx : Nat) (bd : List Nat) (a b : Nat) : String :=
  String.mk ((l.drop (idx + (bd.take a).sum)).take ((bd.drop a).take (b - a)).sum)

/-- The Clayton any-position amount regex `([\d,]+\.\d{2})(?:\s|$)`:
leftmost match of the core whose following character is whitespace or the
end; returns the position and length of the first (core) group. -/
def clayAmountAnyGo : List Char → Nat → Option (Nat × Nat)
  | l, pos =>
      let bds := mSeq (regexFuel clayAmountEndP l) clayAmountEndP l
      match (bds.filter (fun bd =>
          match (l.drop bd.sum).head? with
          | none => true
          | some c => isJsWs c)).head? with
      | some bd => some (pos, bd.sum)
      | none =>
          match l with
          | [] => none
          | _ :: t => clayAmountAnyGo t (pos + 1)

/-- Convert a matched `MM/DD/YYYY` into the ISO `YYYY-MM-DD` used for the
database, from a search hit of `clayDateP`. -/
def clayIsoOf (l : List Char) (r : Nat × List Nat) : String :=
  groupOfBd l r.1 r.2 4 5 ++ "-" ++ groupOfBd l r.1 r.2 0 1 ++ "-" ++ groupOfBd l r.1 r.2 2 3

/-- Stable insertion by match index, the JavaScript stable
`sort((a, b) => a.index - b.index)` of the column re-derivation. -/
def insertByIdx (x : Nat × String) : List (Nat × String) → List (Nat × String)
  | [] => [x]
  | y :: t => if y.1 ≤ x.1 then y :: insertByIdx x t else x :: y :: t

/-- Re-derive the column parts by locating the five field patterns and
ordering the hits by position (the `parts.length < 4` salvage of the
column-order branch). -/
def clayRederiveParts (rowText : String) : List String :=
  let l := rowText.data
  let cands : List (Nat × String) :=
    ([(jsSearch clayDateP false false l).map (fun r => (r.1, matchedStr l r)),
      (jsSearch clayParcelP false false l).map (fun r => (r.1, matchedStr l r)),
      (jsSearch clayAddressP false false l).map (fun r => (r.1, matchedStr l r)),
      (jsSearch clayYearsP false false l).map (fun r => (r.1, matchedStr l r)),
      (jsSearch clayAmountEndP false true l).map (fun r => (r.1, matchedStr l r))]).filterMap id
  (cands.foldl (fun acc x => insertByIdx x acc) []).map (fun x => x.2)

/-- The column-order branch of `parseClaytonTableRow`: split the row on
runs of two or more spaces (re-deriving the parts by pattern when fewer
than four appear), then read date, parcel/owner, location and cry-out
bid at their configured indexes. -/
def clayColumnBranch (rowText : String) (saleDate : Option String)
    (co : ClaytonColumnOrder) :
    Option String × String × String × JsNum × Option String :=
  let parts0 := ((splitWsMin 2 rowText).map jsTrim).filter (fun p => p.length ≠ 0)
  let parts := if parts0.length < 4 then clayRederiveParts rowText else parts0
  let rowSaleDate :=
    if 0 ≤ co.date ∧ co.date.toNat < parts.length then
      let dateText := parts.getD co.date.toNat ""
      match jsSearch clayDateP false false dateText.data with
      | some r => some (clayIsoOf dateText.data r)
      | none => saleDate
    else saleDate
  let pidOwner : Option String × String :=
    if 0 ≤ co.parcelName ∧ co.parcelName.toNat < parts.length then
      let parcelNameText := parts.getD co.parcelName.toNat ""
      match parcelNameText.data.findIdx? (fun c => c = '/') with
      | some si =>
          if 0 < si then
            (some (jsTrim (String.mk (parcelNameText.data.take si))),
             jsTrim (String.mk (parcelNameText.data.drop (si + 1))))
          else (some (jsTrim parcelNameText), "")
      | none => (some (jsTrim parcelNameText), "")
    else (none, "")
  let address :=
    if 0 ≤ co.propertyLocation ∧ co.propertyLocation.toNat < parts.length then
      parts.getD co.propertyLocation.toNat ""
    else ""
  let taxAmount :=
    if 0 ≤ co.cryOutBid ∧ co.cryOutBid.toNat < parts.length then
      parseCurrency (parts.getD co.cryOutBid.toNat "")
    else .num 0
  (pidOwner.1, pidOwner.2, address, taxAmount, rowSaleDate)

/-- The pattern-fallback branch of `parseClaytonTableRow`: regex-locate
date, parcel/owner (or parcel alone), street address and trailing
amount anywhere in the row text. -/
def clayPatternBranch (rowText : String) (saleDate : Option String) :
    Option String × String × String × JsNum × Option String :=
  let l := rowText.data
  let rowSaleDate :=
    match jsSearch clayDateP false false l with
    | some r => some (clayIsoOf l r)
    | none => saleDate
  let pidOwner : Option String × String :=
    match jsSearch clayParcelNameP false false l with
    | some r => (some (jsTrim (groupOfBd l r.1 r.2 0 6)), jsTrim (groupOfBd l r.1 r.2 8 10))
    | none =>
        match jsSearch clayParcelP false false l with
        | some r => (some (jsTrim (matchedStr l r)), "")
        | none => (none, "")
  let address :=
    match jsSearch clayAddressLongP false false l with
    | some r => jsTrim (matchedStr l r)
    | none => ""
  let taxAmount :=
    match clayAmountAnyGo l 0 with
    | some hit => parseCurrency (String.mk ((l.drop hit.1).take hit.2))
    | none => .num 0
  (pidOwner.1, pidOwner.2, address, taxAmount, rowSaleDate)

/-- Tail of `parseClaytonTableRow` after its fields are assigned: the
validity gate (`!parcelId || parcelId.length < 3` yields null), the
address split, and the record construction. -/
def clayFinalize (fields : Option String × String × String × JsNum × Option String) :
    Option ScrapedTaxLien :=
  match fields.1 with
  | none => none
  | some pid =>
      if pid.length < 3 then none
      else
        let ap := parseAddress fields.2.2.1
        some { parcel_id := pid
               owner_name := fields.2.1
               property_address := ap.address
               city := ap.city
               zip := ap.zip
               tax_amount_due := fields.2.2.2.1
               sale_date := fields.2.2.2.2 }

/-- `ClaytonScraper.parseClaytonTableRow`: parse one row of the Clayton
tax-sale table; a record is produced only when a parcel id of length at
least 3 was found. -/
def parseClaytonTableRow (rowText : String) (saleDate : Option String)
    (columnOrder : Option ClaytonColumnOrder) : Option ScrapedTaxLien :=
  clayFinalize
    (match columnOrder with
     | some co => if 0 ≤ co.parcelName then clayColumnBranch rowText saleDate co
                  else clayPatternBranch rowText saleDate
     | none => clayPatternBranch rowText saleDate)

/-!
## CobbScraper: HTML table extraction and enrichment filtering
-/

/-- The table-row loop of `CobbScraper.scrape` on extracted cell texts
(the cheerio DOM walk is abstracted to the per-row list of `td`/`th`
texts it produces): rows with at least three cells yield a record when
parcel, owner and address are non-empty and the parcel cell is not the
repeated header literal. -/
def cobbExtractRows (rows : List (List String)) (taxSaleDates : List String) :
    List ScrapedTaxLien :=
  rows.filterMap (fun cells =>
    if 3 ≤ cells.length then
      let parcelId := jsTrim (cells.getD 0 "")
      let ownerName := jsTrim (cells.getD 1 "")
      let addressInfo := jsTrim (cells.getD 2 "")
      let taxAmountText := if 3 < cells.length then jsTrim (cells.getD 3 "") else ""
      if parcelId ≠ "" && ownerName ≠ "" && addressInfo ≠ "" &&
          !(strIncludes (lowerStr parcelId) "parcel") then
        let ap := parseAddress addressInfo
        some { parcel_id := parcelId
               owner_name := ownerName
               property_address := ap.address
               city := ap.city
               zip := ap.zip
               tax_amount_due := if taxAmountText ≠ "" then parseCurrency taxAmountText else .num 0
               sale_date := taxSaleDates.head? }
      else none
    else none)

/-- The enrichment lookup result of
`RealEstateService.enrichPropertyByParcel`: property data with the
assessed improvement value; `isValid` is the non-zero signal
(`assessedImprovementValue !== 0 && assessedImprovementValue !== "0"`,
with the string zero collapsing to the same numeric model). -/
structure EnrichmentResult where
  assessed_improvement_value : Int
  deriving DecidableEq, Repr

/-- The validity signal of an enrichment result. -/
def EnrichmentResult.isValidSignal (r : EnrichmentResult) : Bool :=
  r.assessed_improvement_value ≠ 0

/-- `CobbScraper.enrichAndFilterLiens` (also `ClaytonScraper`): keep a
lien only when its lookup returns a result whose validity signal holds;
a null result, an invalid signal, or a thrown error all skip the lien. -/
def cobbEnrichFilter (liens : List ScrapedTaxLien)
    (lookup : ScrapedTaxLien → Except Unit (Option EnrichmentResult)) :
    List ScrapedTaxLien :=
  liens.filter (fun l =>
    match lookup l with
    | .ok (some r) => r.isValidSignal
    | _ => false)

/-- `FultonScraper.enrichAndFilterLiens`: the body keeps a lien whenever
the lookup returns any non-null result, regardless of the validity
signal (the branch is marked `TEMP: Disable filtering` in the source);
only a null result or a thrown error skips the lien. -/
def fultonEnrichFilter (liens : List ScrapedTaxLien)
    (lookup : ScrapedTaxLien → Except Unit (Option EnrichmentResult)) :
    List ScrapedTaxLien :=
  liens.filter (fun l =>
    match lookup l with
    | .ok (some _) => true
    | _ => false)

/-!
## The parsePdf fallback chain (`src/lib/utils/pdfParse.ts`)

The three tiers call external libraries (pdf2json, pdf-parse,
pdfjs/tesseract); each library interaction is abstracted to the outcome
it hands back, while the wrapper logic around it (cleanup, empty-text
detection, error construction, the fallback chain, and the serverless
guard) is embedded from the source.
-/

/-- Outcome of the pdf2json library on a buffer: a parser error, or the
text gathered by the primary page walk plus whatever the raw-structure
salvage scan would additionally collect. -/
structure Pdf2JsonOutcome where
  err : Option String
  primary : String
  salvage : String

/-- Outcome of the pdf-parse library: a thrown error or `result.text`. -/
structure PdfParseOutcome where
  err : Option String
  text : String

/-- Outcome of the OCR stack: a thrown error or the per-page texts. -/
structure OcrOutcome where
  err : Option String
  pages : List String

/-- The whitespace collapse applied to pdf2json text (all whitespace runs
to single spaces; the subsequent blank-line replace of the source is
vacuous because no newline survives this collapse). -/
def collapseWsAllGo : Bool → List Char → List Char
  | _, [] => []
  | inRun, c :: rest =>
      if isJsWs c then
        (if inRun then collapseWsAllGo true rest else ' ' :: collapseWsAllGo true rest)
      else c :: collapseWsAllGo false rest

/-- Cleanup of extracted pdf2json text: collapse whitespace and trim. -/
def jsCollapseWsTrim (s : String) : String :=
  jsTrim (String.mk (collapseWsAllGo false s.data))

/-- `parsePdfWithPdf2json`: reject on a parser error; clean the primary
text; on empty cleaned text retry with the salvage scan appended; reject
when still empty, so this tier never resolves with empty text. -/
def pdf2jsonTier (o : Pdf2JsonOutcome) : Except String String :=
  match o.err with
  | some e => .error ("PDF parsing failed: " ++ e)
  | none =>
      let cleaned := jsCollapseWsTrim o.primary
      if cleaned.length = 0 then
        let cleaned2 := jsCollapseWsTrim (o.primary ++ o.salvage)
        if cleaned2.length = 0 then
          .error "No text extracted from PDF - may be image-based (scanned PDF)"
        else .ok cleaned2
      else .ok cleaned

/-- `parsePdfWithPdfParse`: wrap library errors, and treat zero
extracted characters as a failure of this tier. -/
def pdfParseTier (o : PdfParseOutcome) : Except String String :=
  match o.err with
  | some e => .error ("pdf-parse failed: " ++ e)
  | none =>
      if o.text.length = 0 then
        .error "pdf-parse failed: pdf-parse extracted no text - may be image-based"
      else .ok o.text

/-- `parsePdfWithOCR`: concatenate the per-page texts with newlines and
fail when the whole is blank. -/
def ocrTier (o : OcrOutcome) : Except String String :=
  match o.err with
  | some e => .error e
  | none =>
      let fullText := String.join (o.pages.map (fun t => t ++ "\n"))
      if (jsTrim fullText).length = 0 then .error "OCR extracted no text from the PDF"
      else .ok fullText

/-- `parsePdf`: pdf2json, then pdf-parse, then (outside serverless
environments only) OCR; the final error embeds the first tier's message
and a fixed OCR note. -/
def parsePdfModel (serverless : Bool) (o1 : Pdf2JsonOutcome)
    (o2 : PdfParseOutcome) (o3 : OcrOutcome) : Except String String :=
  match pdf2jsonTier o1 with
  | .ok t => .ok t
  | .error e1 =>
      match pdfParseTier o2 with
      | .ok t => .ok t
      | .error _ =>
          if !serverless then
            match ocrTier o3 with
            | .ok t => .ok t
            | .error _ => .error ("PDF parsing failed: " ++ e1 ++ ". OCR also failed.")
          else
            .error ("PDF parsing failed: " ++ e1 ++ ". OCR not available in serverless environment.")

/-- Whether the chain reaches the OCR tier: both text tiers failed and
the serverless indicator is absent (read off the chain structure of
`parsePdf`, where the OCR call sits only under the non-serverless
branch). -/
def parsePdfAttemptsOcr (serverless : Bool) (o1 : Pdf2JsonOutcome)
    (o2 : PdfParseOutcome) : Bool :=
  match pdf2jsonTier o1 with
  | .ok _ => false
  | .error _ =>
      match pdfParseTier o2 with
      | .ok _ => false
      | .error _ => !serverless

/-- Is the head (if any) a non-collapsible character? -/
def headNotNNWs : List Char → Bool
  | [] => true
  | c :: _ => !isNNWs c

/-- The collapse invariant: every non-newline whitespace character is a
single space not followed by more non-newline whitespace. -/
def collapsedOk : List Char → Bool
  | [] => true
  | c :: rest =>
      (if isNNWs c then (c == ' ') && headNotNNWs rest else true) && collapsedOk rest

/-- A two-section sample document for the C5 witness. -/
def fultonTwoSectionDoc : List String :=
  ["SHERIFF SALE NUMBER TAX PARCEL ID SITUS",
   "0226-54580 14F-0184-0008-002-7 0 HOWELL DR",
   "SHERIFF SALE NUMBER TAX PARCEL ID SITUS",
   "0226-54581 14F-0185-0008-002-7 0 MAIN AVE"]

/-!
## Claim C3: totality and sign of parseCurrency
-/

/-- A decimal-literal value is non-negative. -/
theorem decValue_nonneg (intDs fracDs : List Char) (e : ℤ) :
    0 ≤ decValue intDs fracDs e := by
  unfold decValue
  positivity

/-- Everything `jsDecimalValue` returns is non-negative. -/
theorem jsDecimalValue_nonneg (r : List Char) (q : ℚ)
    (h : jsDecimalValue r = some q) : 0 ≤ q := by
  simp only [jsDecimalValue] at h
  split at h
  · exact absurd h (by simp)
  · obtain rfl : decValue _ _ _ = q := Option.some.inj h
    exact decValue_nonneg _ _ _

/-- Without a negation request, `parseFloat` never yields negative
infinity and every finite value it yields is non-negative. -/
theorem jsParseFloatNoSign_nonneg (r : List Char) :
    jsParseFloatNoSign r false ≠ JsNum.negInf ∧
    ∀ q, jsParseFloatNoSign r false = JsNum.num q → 0 ≤ q := by
  unfold jsParseFloatNoSign
  split
  · exact ⟨by simp, by intro q h; cases h⟩
  · constructor
    · cases hd : jsDecimalValue r <;> simp [hd]
    · intro q h
      cases hd : jsDecimalValue r with
      | none => rw [hd] at h; cases h
      | some v =>
          rw [hd] at h
          have hv : (if (false : Bool) = true then -v else v) = q := JsNum.num.inj h
          rw [if_neg (by simp)] at hv
          subst hv
          exact jsDecimalValue_nonneg r v hd

/-- `parseFloat` on a list without a minus sign never yields negative
infinity or a negative value. -/
theorem jsParseFloat_no_minus (l : List Char) (h : ('-') ∉ l) :
    jsParseFloat l ≠ JsNum.negInf ∧
    ∀ q, jsParseFloat l = JsNum.num q → 0 ≤ q := by
  have hsub : ('-') ∉ l.dropWhile isJsWs := fun hm =>
    h ((List.dropWhile_sublist (p := isJsWs) (l := l)).mem hm)
  unfold jsParseFloat
  split
  · rename_i r heq
    exact absurd (heq ▸ List.mem_cons_self '-' r) hsub
  · exact jsParseFloatNoSign_nonneg _
  · exact jsParseFloatNoSign_nonneg _

/-- Claim C3, amended.  `parseCurrency` is a total function (hence it
never throws): it returns exactly `0` whenever `parseFloat` fails on the
cleaned input, and for every input string containing no minus sign its
result is non-negative (never negative infinity, and every finite result
is at least `0`).  (As the counterexample records, an input whose cleaned
form starts with a minus sign can produce a negative result, so the
unrestricted non-negativity of the original claim fails.) -/
theorem parseCurrency_total_nonneg (s : String) (h : ('-') ∉ s.data) :
    (jsParseFloat (currencyClean s) = JsNum.nan → parseCurrency s = JsNum.num 0) ∧
    parseCurrency s ≠ JsNum.negInf ∧
    (∀ q, parseCurrency s = JsNum.num q → 0 ≤ q) := by
  have hcl : ('-') ∉ currencyClean s := by
    intro hm
    exact h (List.mem_of_mem_filter hm)
  have hf := jsParseFloat_no_minus (currencyClean s) hcl
  refine ⟨fun hn => by simp only [parseCurrency, hn], ?_, ?_⟩
  · unfold parseCurrency
    cases hv : jsParseFloat (currencyClean s) <;> simp_all
  · intro q hq
    unfold parseCurrency at hq
    cases hv : jsParseFloat (currencyClean s) with
    | nan => rw [hv] at hq; cases hq; positivity
    | posInf => rw [hv] at hq; cases hq
    | negInf => exact absurd hv hf.1
    | num v => rw [hv] at hq; cases hq; exact hf.2 q hv

/-- Witness for C3 at the concrete input `$1,250.00`. -/
theorem parseCurrency_total_nonneg_witness :
    ('-') ∉ "$1,250.00".data ∧
    ((jsParseFloat (currencyClean "$1,250.00") = JsNum.nan →
        parseCurrency "$1,250.00" = JsNum.num 0) ∧
      parseCurrency "$1,250.00" ≠ JsNum.negInf ∧
      (∀ q, parseCurrency "$1,250.00" = JsNum.num q → 0 ≤ q)) :=
  ⟨by decide, parseCurrency_total_nonneg "$1,250.00" (by decide)⟩

unseal Rat.add Rat.mul Rat.inv in
/-- Counterexample to C3 as stated: the input `-5` makes `parseCurrency`
return the negative number `-5`, so the parser is not sign-safe. -/
theorem parseCurrency_negative_counterexample :
    parseCurrency "-5" = JsNum.num (-5) ∧ ¬ (0 ≤ (-5 : ℚ)) := by
  constructor
  · decide
  · norm_num

/-!
## Claim C10: characterization of parseAddress
-/

/-- `String.mk` after `String.data` is the identity. -/
theorem mk_data (s : String) : String.mk s.data = s := rfl

/-- Closed form of the split worker: the first token is the accumulator
plus the chars before the first separator, and the remaining tokens are
the split of what follows that separator. -/
theorem splitCharGo_eq (sep : Char) (l : List Char) : ∀ (acc : List Char),
    splitCharGo sep l acc =
      (acc.reverse ++ l.takeWhile (fun c => !(c == sep))) ::
        (if sep ∈ l then splitCharGo sep ((l.dropWhile (fun c => !(c == sep))).tail) []
         else []) := by
  induction l with
  | nil => intro acc; simp [splitCharGo]
  | cons c t ih =>
      intro acc
      by_cases hc : c = sep
      · subst hc
        rw [splitCharGo]
        simp [List.takeWhile_cons, List.dropWhile_cons]
      · rw [splitCharGo]
        rw [if_neg hc]
        rw [ih (c :: acc)]
        simp [List.takeWhile_cons, List.dropWhile_cons, hc, List.mem_cons,
          show ¬ sep = c from fun h => hc h.symm]

/-- Claim C10, amended.  For a comma-free input, `parseAddress` returns
the trimmed input as the street address — except that a whitespace-only
input is returned untrimmed (the `parts[0]?.trim() || address` fallback)
— and leaves city and zip unset.  For an input with a comma, the street
address is the trimmed text before the first comma (again falling back
to the whole input when that trim is empty), and city/zip are populated
exactly when the segment between the first comma and the following comma
(or the end) holds at least two whitespace-separated tokens, the zip
being the last token and the city the remaining tokens joined by
spaces. -/
theorem parseAddress_spec (s : String) :
    (((',') ∉ s.data) →
        parseAddress s =
          { address := if jsTrim s = "" then s else jsTrim s
            city := none
            zip := none }) ∧
    (((',') ∈ s.data) →
        parseAddress s =
          (let before := String.mk (s.data.takeWhile (fun c => !(c == ',')))
           let seg := String.mk
             (((s.data.dropWhile (fun c => !(c == ','))).tail).takeWhile (fun c => !(c == ',')))
           let toks := jsSplitWsRuns (jsTrim seg)
           { address := if jsTrim before = "" then s else jsTrim before
             city := if 2 ≤ toks.length then some (joinSp toks.dropLast) else none
             zip := if 2 ≤ toks.length then toks.getLast? else none })) := by
  constructor
  · intro hnc
    have ht : s.data.takeWhile (fun c => !(c == ',')) = s.data :=
      List.takeWhile_eq_self_iff.mpr (fun a ha => by
        simp only [Bool.not_eq_true']
        exact beq_eq_false_iff_ne.mpr (fun h => hnc (h ▸ ha)))
    unfold parseAddress splitChar
    rw [splitCharGo_eq, if_neg hnc, ht]
    simp [mk_data]
  · intro hc
    unfold parseAddress splitChar
    rw [splitCharGo_eq, if_pos hc]
    rw [splitCharGo_eq]
    simp only [List.reverse_nil, List.nil_append, List.map_cons, List.length_cons,
      List.getD, List.get?, List.head!, List.getD_cons_zero, List.getD_cons_succ]
    split <;> split <;> rename_i hP
    · split <;> rename_i h2 <;> simp only [Option.getD_some] at h2 <;> simp [h2]
    · exact absurd hP (by omega)
    · split <;> rename_i h2 <;> simp only [Option.getD_some] at h2 <;> simp [h2]
    · exact absurd hP (by simp at hP)

/-- Witness for C10 at concrete inputs with and without a comma. -/
theorem parseAddress_spec_witness :
    parseAddress "100 Main St" = { address := "100 Main St", city := none, zip := none } ∧
    parseAddress "100 Main St, Atlanta 30303" =
      { address := "100 Main St", city := some "Atlanta", zip := some "30303" } :=
  ⟨by
    have h := (parseAddress_spec "100 Main St").1 (by decide)
    rw [h]; decide,
   by
    have h := (parseAddress_spec "100 Main St, Atlanta 30303").2 (by decide)
    rw [h]; decide⟩

/-- Counterexample to C10 as stated: a whitespace-only comma-free input
comes back untrimmed (the falsy-trim fallback), and with several commas
the city/zip segment is only the text up to the second comma, not the
whole remainder after the first. -/
theorem parseAddress_counterexample :
    (',') ∉ " ".data ∧ (parseAddress " ").address = " " ∧ jsTrim " " = "" ∧
    (parseAddress "A,B C,D E").zip = some "C" ∧
    (parseAddress "A,B C,D E").zip ≠ some "E" := by decide

/-!
## Claim C9: the Cobb HTML extractor scenario
-/

unseal Rat.add Rat.mul Rat.inv Rat.ofScientific in
/-- Claim C9, amended.  On the synthetic table with header row `Parcel,
Owner, Address, Tax Due` and the single data row, the extractor yields
exactly one record; since the address cell contains no comma,
`parseAddress` leaves city and zip unset and the full cell text is the
street address, and the currency cell parses to 1250. -/
theorem cobb_html_scenario :
    cobbExtractRows
        [["Parcel", "Owner", "Address", "Tax Due"],
         ["12-345", "J Smith", "100 Main St Atlanta 30303", "$1,250.00"]] [] =
      [{ parcel_id := "12-345"
         owner_name := "J Smith"
         property_address := "100 Main St Atlanta 30303"
         city := none
         zip := none
         tax_amount_due := .num 1250
         sale_date := none }] := by decide

unseal Rat.add Rat.mul Rat.inv Rat.ofScientific in
/-- Counterexample to C9 as stated: the extractor does not produce the
claimed record with street `100 Main St`, city `Atlanta`, zip `30303` —
its single record carries the unsplit address and no city/zip. -/
theorem cobb_html_scenario_counterexample :
    cobbExtractRows
        [["Parcel", "Owner", "Address", "Tax Due"],
         ["12-345", "J Smith", "100 Main St Atlanta 30303", "$1,250.00"]] [] ≠
      [{ parcel_id := "12-345"
         owner_name := "J Smith"
         property_address := "100 Main St"
         city := some "Atlanta"
         zip := some "30303"
         tax_amount_due := .num 1250
         sale_date := none }] := by decide

/-!
## Claim C2: pattern-scan parsing of the standard-form parcel line
-/

/-- Claim C2 (code bug).  On the cleaned line
`14-0184-0008-002-7 0 BOULEVARD GRANADA SW` with no discoverable header,
the pattern scan recognizes the line as parcel-bearing, yet yields no
record at all: the parcel-id validation regex
`^\d{2}[A-Z0-9][-\s]?[A-Z0-9\s-]+$` demands an alphanumeric third
character, rejecting the standard dashed id (third character `-`) that
the adjacent source comment explicitly lists as allowed, and the line
saved for the next iteration is never flushed. -/
theorem fulton_patternscan_drops_standard_id :
    looksLikeParcelId "14-0184-0008-002-7 0 BOULEVARD GRANADA SW" = true ∧
    fultonIdOk "14-0184-0008-002-7" = false ∧
    fultonIdOk (fultonCleanId "14-0184-0008-002-7") = false ∧
    fultonParsePdfText "14-0184-0008-002-7 0 BOULEVARD GRANADA SW" none = [] := by decide

/-!
## Claim C8: enrichment validity filtering
-/

/-- Claim C8 (code bug).  A record whose enrichment lookup returns a
present-but-zero validity signal is kept by
`FultonScraper.enrichAndFilterLiens` (its filter, marked `TEMP: Disable
filtering`, keeps every non-null result), while
`CobbScraper.enrichAndFilterLiens` skips the same record, as the claim
and the surrounding Fulton log messages describe. -/
theorem fulton_enrich_keeps_zero_signal :
    EnrichmentResult.isValidSignal ⟨0⟩ = false ∧
    fultonEnrichFilter
        [{ parcel_id := "14F-0001-0001-001-1", owner_name := "",
           property_address := "0 MAIN ST", city := some "Atlanta", zip := none,
           tax_amount_due := .num 0, sale_date := none }]
        (fun _ => .ok (some ⟨0⟩)) =
      [{ parcel_id := "14F-0001-0001-001-1", owner_name := "",
         property_address := "0 MAIN ST", city := some "Atlanta", zip := none,
         tax_amount_due := .num 0, sale_date := none }] ∧
    cobbEnrichFilter
        [{ parcel_id := "14F-0001-0001-001-1", owner_name := "",
           property_address := "0 MAIN ST", city := some "Atlanta", zip := none,
           tax_amount_due := .num 0, sale_date := none }]
        (fun _ => .ok (some ⟨0⟩)) = [] := by decide

/-!
## Claims C1 and C7: the parsePdf fallback chain
-/

/-- An empty string has length zero. -/
theorem strLen_zero_iff (s : String) : s.length = 0 ↔ s = "" := by
  constructor
  · intro h
    have : s.data = [] := List.length_eq_zero.mp h
    cases s
    simp_all
  · intro h; subst h; rfl

/-- The pdf2json tier never resolves with empty text. -/
theorem pdf2jsonTier_ok_nonempty (o : Pdf2JsonOutcome) (t : String)
    (h : pdf2jsonTier o = .ok t) : t.length ≠ 0 := by
  unfold pdf2jsonTier at h
  cases he : o.err with
  | some e => rw [he] at h; cases h
  | none =>
      rw [he] at h
      by_cases h1 : (jsCollapseWsTrim o.primary).length = 0
      · rw [if_pos h1] at h
        by_cases h2 : (jsCollapseWsTrim (o.primary ++ o.salvage)).length = 0
        · rw [if_pos h2] at h; cases h
        · rw [if_neg h2] at h
          cases h; exact h2
      · rw [if_neg h1] at h
        cases h; exact h1

/-- The pdf-parse tier never resolves with empty text. -/
theorem pdfParseTier_ok_nonempty (o : PdfParseOutcome) (t : String)
    (h : pdfParseTier o = .ok t) : t.length ≠ 0 := by
  unfold pdfParseTier at h
  cases he : o.err with
  | some e => rw [he] at h; cases h
  | none =>
      rw [he] at h
      by_cases h1 : o.text.length = 0
      · rw [if_pos h1] at h; cases h
      · rw [if_neg h1] at h; cases h; exact h1

/-- The OCR tier never resolves with empty text. -/
theorem ocrTier_ok_nonempty (o : OcrOutcome) (t : String)
    (h : ocrTier o = .ok t) : t.length ≠ 0 := by
  unfold ocrTier at h
  cases he : o.err with
  | some e => rw [he] at h; cases h
  | none =>
      rw [he] at h
      by_cases h1 : (jsTrim (String.join (o.pages.map (fun t => t ++ "\n")))).length = 0
      · rw [if_pos h1] at h; cases h
      · rw [if_neg h1] at h
        cases h
        intro hz
        apply h1
        rw [strLen_zero_iff] at hz
        rw [hz]
        rfl

/-- Claim C1, amended.  For every buffer (every triple of library
outcomes) and environment: the chain resolves only with text of
non-zero length; a pdf2json pass whose cleaned text is empty even after
the salvage scan is a failure of that tier (an error, so the next tier
runs, and a pdf-parse success is then returned as the overall result);
and when every applicable tier has failed the chain rejects with an
error that carries the first tier's error message together with a fixed
note about OCR — the pdf-parse and OCR error messages are logged but,
contrary to the original claim, not carried by the raised error. -/
theorem parsePdf_chain_props (serverless : Bool) (o1 : Pdf2JsonOutcome)
    (o2 : PdfParseOutcome) (o3 : OcrOutcome) :
    (∀ t, parsePdfModel serverless o1 o2 o3 = .ok t → t.length ≠ 0) ∧
    (o1.err = none → (jsCollapseWsTrim o1.primary).length = 0 →
      (jsCollapseWsTrim (o1.primary ++ o1.salvage)).length = 0 →
      pdf2jsonTier o1 =
        .error "No text extracted from PDF - may be image-based (scanned PDF)") ∧
    (∀ e1 t, pdf2jsonTier o1 = .error e1 → pdfParseTier o2 = .ok t →
      parsePdfModel serverless o1 o2 o3 = .ok t) ∧
    (∀ e1 e2, pdf2jsonTier o1 = .error e1 → pdfParseTier o2 = .error e2 →
      serverless = true →
      parsePdfModel serverless o1 o2 o3 =
        .error ("PDF parsing failed: " ++ e1 ++ ". OCR not available in serverless environment.")) ∧
    (∀ e1 e2 e3, pdf2jsonTier o1 = .error e1 → pdfParseTier o2 = .error e2 →
      serverless = false → ocrTier o3 = .error e3 →
      parsePdfModel serverless o1 o2 o3 =
        .error ("PDF parsing failed: " ++ e1 ++ ". OCR also failed.")) := by
  refine ⟨?_, ?_, ?_, ?_, ?_⟩
  · intro t h
    unfold parsePdfModel at h
    cases h1 : pdf2jsonTier o1 with
    | ok t1 => rw [h1] at h; cases h; exact pdf2jsonTier_ok_nonempty o1 _ h1
    | error e1 =>
        rw [h1] at h
        cases h2 : pdfParseTier o2 with
        | ok t2 => rw [h2] at h; cases h; exact pdfParseTier_ok_nonempty o2 _ h2
        | error e2 =>
            rw [h2] at h
            cases serverless with
            | true => simp at h
            | false =>
                simp only [Bool.not_false, if_true] at h
                cases h3 : ocrTier o3 with
                | ok t3 => rw [h3] at h; cases h; exact ocrTier_ok_nonempty o3 _ h3
                | error e3 => rw [h3] at h; cases h
  · intro he h1 h2
    unfold pdf2jsonTier
    rw [he, if_pos h1, if_pos h2]
  · intro e1 t h1 h2
    unfold parsePdfModel
    rw [h1, h2]
  · intro e1 e2 h1 h2 hs
    subst hs
    unfold parsePdfModel
    rw [h1, h2]
    rfl
  · intro e1 e2 e3 h1 h2 hs h3
    subst hs
    unfold parsePdfModel
    rw [h1, h2]
    simp only [Bool.not_false, if_true]
    rw [h3]

/-- Witness for C1: with all three tiers failing outside serverless, the
chain rejects with the tier-1 message plus the fixed OCR note. -/
theorem parsePdf_chain_props_witness :
    parsePdfModel false ⟨some "AAA", "", ""⟩ ⟨some "BBB", ""⟩ ⟨some "CCC", []⟩ =
      .error ("PDF parsing failed: " ++ "PDF parsing failed: AAA" ++ ". OCR also failed.") :=
  (parsePdf_chain_props false ⟨some "AAA", "", ""⟩ ⟨some "BBB", ""⟩ ⟨some "CCC", []⟩).2.2.2.2
    "PDF parsing failed: AAA" "pdf-parse failed: BBB" "CCC" rfl rfl rfl rfl

/-- Counterexample to C1 as stated: when pdf2json fails with `AAA`,
pdf-parse with `BBB` and OCR with `CCC`, the raised error message does
not contain the pdf-parse or OCR per-tier messages. -/
theorem parsePdf_error_message_counterexample :
    parsePdfModel false ⟨some "AAA", "", ""⟩ ⟨some "BBB", ""⟩ ⟨some "CCC", []⟩ =
      .error "PDF parsing failed: PDF parsing failed: AAA. OCR also failed." ∧
    strIncludes "PDF parsing failed: PDF parsing failed: AAA. OCR also failed." "BBB" = false ∧
    strIncludes "PDF parsing failed: PDF parsing failed: AAA. OCR also failed." "CCC" = false := by
  exact ⟨rfl, by decide, by decide⟩

/-- An occurrence in the right part survives prepending on the left. -/
theorem inclGo_append_right (pat l2 : List Char) (h : inclGo pat l2 = true) :
    ∀ l1, inclGo pat (l1 ++ l2) = true := by
  intro l1
  induction l1 with
  | nil => simpa using h
  | cons c t ih =>
      show inclGo pat (c :: (t ++ l2)) = true
      unfold inclGo
      rw [ih]
      simp

/-- `includes` of a suffix occurrence. -/
theorem strIncludes_append_right (a b pat : String) (h : strIncludes b pat = true) :
    strIncludes (a ++ b) pat = true := by
  unfold strIncludes at h ⊢
  rw [String.data_append]
  exact inclGo_append_right pat.data b.data h a.data

/-- Claim C7.  With the restricted-runtime indicator set, the chain
never attempts OCR: its outcome is independent of the OCR oracle, the
OCR tier is reached only when the indicator is absent, and when both
text tiers have failed the chain rejects immediately with the
descriptive error stating that OCR is not available. -/
theorem parsePdf_serverless_skips_ocr (o1 : Pdf2JsonOutcome) (o2 : PdfParseOutcome)
    (o3 o3' : OcrOutcome) :
    parsePdfAttemptsOcr true o1 o2 = false ∧
    parsePdfModel true o1 o2 o3 = parsePdfModel true o1 o2 o3' ∧
    (∀ s, parsePdfAttemptsOcr s o1 o2 = true → s = false) ∧
    (∀ e1 e2, pdf2jsonTier o1 = .error e1 → pdfParseTier o2 = .error e2 →
      parsePdfModel true o1 o2 o3 =
        .error ("PDF parsing failed: " ++ e1 ++ ". OCR not available in serverless environment.") ∧
      strIncludes ("PDF parsing failed: " ++ e1 ++ ". OCR not available in serverless environment.")
        "OCR not available" = true) := by
  refine ⟨?_, ?_, ?_, ?_⟩
  · unfold parsePdfAttemptsOcr
    cases h1 : pdf2jsonTier o1 with
    | ok t => rfl
    | error e1 =>
        cases h2 : pdfParseTier o2 with
        | ok t => rfl
        | error e2 => rfl
  · unfold parsePdfModel
    cases h1 : pdf2jsonTier o1 with
    | ok t => rfl
    | error e1 =>
        cases h2 : pdfParseTier o2 with
        | ok t => rfl
        | error e2 => rfl
  · intro s hs
    unfold parsePdfAttemptsOcr at hs
    cases h1 : pdf2jsonTier o1 with
    | ok t => rw [h1] at hs; simp at hs
    | error e1 =>
        rw [h1] at hs
        cases h2 : pdfParseTier o2 with
        | ok t => rw [h2] at hs; simp at hs
        | error e2 => rw [h2] at hs; simpa using hs
  · intro e1 e2 h1 h2
    constructor
    · unfold parsePdfModel
      rw [h1, h2]
      rfl
    · have : strIncludes (("PDF parsing failed: " ++ e1) ++
          ". OCR not available in serverless environment.") "OCR not available" = true :=
        strIncludes_append_right _ _ _ (by decide)
      simpa [String.append_assoc] using this

/-- Witness for C7: concrete failing text tiers and two different OCR
oracles give the same immediate serverless rejection. -/
theorem parsePdf_serverless_skips_ocr_witness :
    parsePdfAttemptsOcr true ⟨some "AAA", "", ""⟩ ⟨some "BBB", ""⟩ = false ∧
    parsePdfModel true ⟨some "AAA", "", ""⟩ ⟨some "BBB", ""⟩ ⟨some "CCC", []⟩ =
      parsePdfModel true ⟨some "AAA", "", ""⟩ ⟨some "BBB", ""⟩ ⟨none, ["page text"]⟩ ∧
    parsePdfModel true ⟨some "AAA", "", ""⟩ ⟨some "BBB", ""⟩ ⟨some "CCC", []⟩ =
      .error ("PDF parsing failed: " ++ "PDF parsing failed: AAA" ++
        ". OCR not available in serverless environment.") :=
  ⟨(parsePdf_serverless_skips_ocr ⟨some "AAA", "", ""⟩ ⟨some "BBB", ""⟩
      ⟨some "CCC", []⟩ ⟨none, ["page text"]⟩).1,
   (parsePdf_serverless_skips_ocr ⟨some "AAA", "", ""⟩ ⟨some "BBB", ""⟩
      ⟨some "CCC", []⟩ ⟨none, ["page text"]⟩).2.1,
   ((parsePdf_serverless_skips_ocr ⟨some "AAA", "", ""⟩ ⟨some "BBB", ""⟩
      ⟨some "CCC", []⟩ ⟨none, ["page text"]⟩).2.2.2 "PDF parsing failed: AAA"
      "pdf-parse failed: BBB" rfl rfl).1⟩

/-!
## Claim C5: two-section header-anchored segmentation
-/

/-- The start-of-data scan stays strictly after the lower bound and
within the scan limit. -/
theorem fultonFindStartGo_bounds (lines : List String) (lim lo : Nat) :
    ∀ (steps i cur : Nat), lo < cur → cur ≤ lim → lo < i →
      lo < fultonFindStartGo lines lim steps i cur ∧
        fultonFindStartGo lines lim steps i cur ≤ lim := by
  intro steps
  induction steps with
  | zero =>
      intro i cur h1 h2 _
      simpa [fultonFindStartGo] using And.intro h1 h2
  | succ n ih =>
      intro i cur h1 h2 h3
      unfold fultonFindStartGo
      by_cases hl : lim ≤ i
      · rw [if_pos hl]; exact ⟨h1, h2⟩
      · rw [if_neg hl]
        have hi : i < lim := Nat.lt_of_not_le hl
        dsimp only
        split_ifs with hskip hpar
        · exact ih (i + 1) (i + 1) (by omega) (by omega) (by omega)
        · exact ⟨h3, by omega⟩
        · exact ih (i + 1) cur h1 h2 (by omega)

/-- The start of each section lies strictly after its header and at or
before the next header (or document end). -/
theorem fultonFindStart_bounds (lines : List String) (h next : Nat) (hn : h < next) :
    h < fultonFindStart lines h next ∧ fultonFindStart lines h next ≤ next := by
  unfold fultonFindStart
  have hlim : h + 1 ≤ min (h + 10) next := le_min (by omega) hn
  have hb := fultonFindStartGo_bounds lines (min (h + 10) next) h
    (min (h + 10) next + 1) (h + 1) (h + 1) (Nat.lt_succ_self h) hlim (Nat.lt_succ_self h)
  exact ⟨hb.1, le_trans hb.2 (min_le_right _ _)⟩

/-- Header indices are produced in strictly increasing document order. -/
theorem fultonHeaderIndices_sorted (lines : List String) :
    (fultonHeaderIndices lines).Pairwise (· < ·) :=
  (List.pairwise_lt_range lines.length).filter _

/-- Every header index is an index into the line list. -/
theorem fultonHeaderIndices_lt_length (lines : List String) :
    ∀ i ∈ fultonHeaderIndices lines, i < lines.length := fun _i hi =>
  List.mem_range.mp (List.mem_of_mem_filter hi)

/-- Claim C5.  When the header occurs exactly twice, the header-anchored
pass opens exactly two segments: the first bounded by the first header
and the second header, the second bounded by the second header and the
end of the document; each segment starts strictly after its own header
(so no line at or before a header is parsed into its segment), and no
line index belongs to both segments. -/
theorem fulton_two_headers_segments (lines : List String) (h1 h2 : Nat)
    (hh : fultonHeaderIndices lines = [h1, h2]) :
    fultonSegmentRanges lines =
      [(fultonFindStart lines h1 h2, h2),
       (fultonFindStart lines h2 lines.length, lines.length)] ∧
    h1 < fultonFindStart lines h1 h2 ∧
    fultonFindStart lines h1 h2 ≤ h2 ∧
    h2 < fultonFindStart lines h2 lines.length ∧
    fultonFindStart lines h2 lines.length ≤ lines.length ∧
    (∀ i : Nat,
      ¬ ((fultonFindStart lines h1 h2 ≤ i ∧ i < h2) ∧
         (fultonFindStart lines h2 lines.length ≤ i ∧ i < lines.length))) := by
  have hs := fultonHeaderIndices_sorted lines
  rw [hh] at hs
  have h12 : h1 < h2 :=
    (List.pairwise_cons.mp hs).1 h2 (List.mem_cons_self _ _)
  have h2len : h2 < lines.length :=
    fultonHeaderIndices_lt_length lines h2 (by rw [hh]; simp)
  have b1 := fultonFindStart_bounds lines h1 h2 h12
  have b2 := fultonFindStart_bounds lines h2 lines.length h2len
  refine ⟨?_, b1.1, b1.2, b2.1, b2.2, ?_⟩
  · unfold fultonSegmentRanges
    rw [hh]
    rfl
  · intro i hcon
    have hx := b2.1
    omega

/-- Witness for C5 on a concrete document whose header occurs exactly at
lines 0 and 2. -/
theorem fulton_two_headers_segments_witness :
    fultonHeaderIndices fultonTwoSectionDoc = [0, 2] ∧
    (fultonSegmentRanges fultonTwoSectionDoc =
      [(fultonFindStart fultonTwoSectionDoc 0 2, 2),
       (fultonFindStart fultonTwoSectionDoc 2 fultonTwoSectionDoc.length,
        fultonTwoSectionDoc.length)] ∧
    0 < fultonFindStart fultonTwoSectionDoc 0 2 ∧
    fultonFindStart fultonTwoSectionDoc 0 2 ≤ 2 ∧
    2 < fultonFindStart fultonTwoSectionDoc 2 fultonTwoSectionDoc.length ∧
    fultonFindStart fultonTwoSectionDoc 2 fultonTwoSectionDoc.length ≤
      fultonTwoSectionDoc.length ∧
    (∀ i : Nat,
      ¬ ((fultonFindStart fultonTwoSectionDoc 0 2 ≤ i ∧ i < 2) ∧
         (fultonFindStart fultonTwoSectionDoc 2 fultonTwoSectionDoc.length ≤ i ∧
          i < fultonTwoSectionDoc.length)))) :=
  ⟨by decide, fulton_two_headers_segments fultonTwoSectionDoc 0 2 (by decide)⟩

/-!
## Claim C6: emitted records always carry a parcel id
-/

/-- Whitespace-to-dash rewriting keeps a non-empty list non-empty. -/
theorem wsToDashGo_false_ne_nil (c : Char) (rest : List Char) :
    wsToDashGo false (c :: rest) ≠ [] := by
  unfold wsToDashGo
  split_ifs <;> simp_all

/-- Whitespace-to-dash rewriting keeps a non-empty string non-empty. -/
theorem wsToDash_ne_empty (s : String) (h : s ≠ "") : wsToDash s ≠ "" := by
  cases hd : s.data with
  | nil =>
      exact absurd (by cases s; simp_all) h
  | cons c rest =>
      unfold wsToDash
      rw [hd]
      intro hcon
      exact wsToDashGo_false_ne_nil c rest (congrArg String.data hcon)

/-- Whatever `fultonFinalize` emits has a non-empty parcel id. -/
theorem fultonFinalize_parcel_ne (p s : String) (d : Option String)
    (lien : ScrapedTaxLien) (h : fultonFinalize p s d = some lien) :
    lien.parcel_id ≠ "" := by
  unfold fultonFinalize at h
  cases hv : fultonValidateId p with
  | none => rw [hv] at h; simp at h
  | some pid =>
      rw [hv] at h
      try dsimp only at h
      by_cases hg1 : (decide (pid = "") || decide (pid.length < 5)) = true
      · rw [if_pos hg1] at h; simp at h
      · rw [if_neg hg1] at h
        by_cases hg2 : (decide (s = "") || decide (s.length < 3)) = true
        · rw [if_pos hg2] at h; simp at h
        · rw [if_neg hg2] at h
          try dsimp only at h
          have hrec := Option.some.inj h
          subst hrec
          show wsToDash pid ≠ ""
          apply wsToDash_ne_empty
          intro hp
          exact hg1 (by simp [hp])

/-- Every record `parseFultonTableRow` emits has a non-empty parcel id. -/
theorem parseFultonTableRow_parcel_ne (rowText : String) (saleDate : Option String)
    (lien : ScrapedTaxLien) (h : parseFultonTableRow rowText saleDate = some lien) :
    lien.parcel_id ≠ "" := by
  unfold parseFultonTableRow at h
  cases hp : fultonRowParts rowText with
  | none => rw [hp] at h; simp at h
  | some parts =>
      rw [hp] at h
      dsimp only at h
      by_cases hg1 : 3 ≤ parts.length
      · rw [if_pos hg1] at h; exact fultonFinalize_parcel_ne _ _ _ _ h
      · rw [if_neg hg1] at h
        by_cases hg2 : parts.length = 2
        · rw [if_pos hg2] at h
          by_cases hg3 : looksLikeParcelId (parts.getD 0 "") = true
          · rw [if_pos hg3] at h; exact fultonFinalize_parcel_ne _ _ _ _ h
          · rw [if_neg hg3] at h; exact fultonFinalize_parcel_ne _ _ _ _ h
        · rw [if_neg hg2] at h; simp at h

/-- Whatever `clayFinalize` emits has a parcel id of length at least 3
(in particular a non-empty one). -/
theorem clayFinalize_parcel (fields : Option String × String × String × JsNum × Option String)
    (lien : ScrapedTaxLien) (h : clayFinalize fields = some lien) :
    lien.parcel_id ≠ "" ∧ 3 ≤ lien.parcel_id.length := by
  unfold clayFinalize at h
  cases hf : fields.1 with
  | none => rw [hf] at h; simp at h
  | some pid =>
      rw [hf] at h
      try dsimp only at h
      by_cases hg : pid.length < 3
      · rw [if_pos hg] at h; simp at h
      · rw [if_neg hg] at h
        try dsimp only at h
        have hrec := Option.some.inj h
        subst hrec
        have hlen : 3 ≤ pid.length := Nat.le_of_not_lt hg
        refine ⟨?_, hlen⟩
        intro hp
        have hp2 : pid = "" := hp
        rw [hp2] at hlen
        simp at hlen

/-- Claim C6.  Every candidate lien record emitted by the Fulton or
Clayton row reconstructors carries a non-empty parcel id: whenever the
parcel id is missing, empty, or fails the jurisdiction gate after
normalization, the parser returns null instead of emitting a record, no
matter how complete the other fields are; so an emitted Fulton record
has a non-empty (validated, length at least 5 before final rewriting)
parcel id, and an emitted Clayton record a parcel id of length at
least 3. -/
theorem rowParsers_require_parcel :
    (∀ (rowText : String) (saleDate : Option String) (lien : ScrapedTaxLien),
        parseFultonTableRow rowText saleDate = some lien → lien.parcel_id ≠ "") ∧
    (∀ (rowText : String) (saleDate : Option String)
        (co : Option ClaytonColumnOrder) (lien : ScrapedTaxLien),
        parseClaytonTableRow rowText saleDate co = some lien →
          lien.parcel_id ≠ "" ∧ 3 ≤ lien.parcel_id.length) := by
  constructor
  · exact parseFultonTableRow_parcel_ne
  · intro rowText saleDate co lien h
    unfold parseClaytonTableRow at h
    exact clayFinalize_parcel _ _ h

unseal Rat.add Rat.mul Rat.inv Rat.ofScientific in
/-- Witness for C6 on concrete Fulton and Clayton rows that do emit
records. -/
theorem rowParsers_require_parcel_witness :
    parseFultonTableRow "0226-54580 | 14F-0184-0008-002-7 | 0 HOWELL DR NW" none =
      some { parcel_id := "14F-0184-0008-002-7", owner_name := "",
             property_address := "0 HOWELL DR NW", city := some "Atlanta", zip := none,
             tax_amount_due := .num 0, sale_date := none } ∧
    ({ parcel_id := "14F-0184-0008-002-7", owner_name := "",
       property_address := "0 HOWELL DR NW", city := some "Atlanta", zip := none,
       tax_amount_due := .num 0, sale_date := none } : ScrapedTaxLien).parcel_id ≠ "" ∧
    parseClaytonTableRow "06002A A010 /TURNER LLC 12 CAMP DR 2817.60" none none =
      some { parcel_id := "06002A A010", owner_name := "TURNER LLC",
             property_address := "12 CAMP DR", city := none, zip := none,
             tax_amount_due := .num 2817.60, sale_date := none } ∧
    3 ≤ ({ parcel_id := "06002A A010", owner_name := "TURNER LLC",
           property_address := "12 CAMP DR", city := none, zip := none,
           tax_amount_due := .num 2817.60, sale_date := none } : ScrapedTaxLien).parcel_id.length :=
  ⟨by decide,
   rowParsers_require_parcel.1 "0226-54580 | 14F-0184-0008-002-7 | 0 HOWELL DR NW" none _
     (by decide),
   by decide,
   (rowParsers_require_parcel.2 "06002A A010 /TURNER LLC 12 CAMP DR 2817.60" none none _
     (by decide)).2⟩

/-!
## Claim C4: idempotence of the OCR cleanup
-/

/-- Characters of the CRLF replace come from the input or are newlines. -/
theorem mem_replCRLF (c : Char) : ∀ l, c ∈ replCRLF l → c ∈ l ∨ c = '\n' := by
  intro l
  induction l using replCRLF.induct with
  | case1 => intro h; cases h
  | case2 d => intro h; rw [replCRLF] at h; exact Or.inl h
  | case3 c1 c2 rest hcond ih =>
      intro h
      rw [replCRLF, if_pos hcond] at h
      rcases List.mem_cons.mp h with h1 | h2
      · exact Or.inr h1
      · rcases ih h2 with h3 | h4
        · exact Or.inl (List.mem_cons_of_mem _ (List.mem_cons_of_mem _ h3))
        · exact Or.inr h4
  | case4 c1 c2 rest hcond ih =>
      intro h
      rw [replCRLF, if_neg hcond] at h
      rcases List.mem_cons.mp h with h1 | h2
      · exact Or.inl (by simp [h1])
      · rcases ih h2 with h3 | h4
        · exact Or.inl (List.mem_cons_of_mem _ h3)
        · exact Or.inr h4

/-- The CRLF replace is the identity on CR-free lists. -/
theorem replCRLF_id : ∀ l, '\r' ∉ l → replCRLF l = l := by
  intro l
  induction l using replCRLF.induct with
  | case1 => intro _; rfl
  | case2 d => intro _; rfl
  | case3 c1 c2 rest hcond ih =>
      intro h
      exfalso
      apply h
      have hc1 : c1 = '\r' := by
        rcases Bool.and_eq_true .. |>.mp hcond with ⟨h1, _⟩
        exact of_decide_eq_true h1
      simp [hc1]
  | case4 c1 c2 rest hcond ih =>
      intro h
      rw [replCRLF, if_neg hcond]
      rw [ih (fun hm => h (List.mem_cons_of_mem _ hm))]

/-- Characters of the CR replace come from the input or are newlines. -/
theorem mem_replCR (c : Char) (l : List Char) (h : c ∈ replCR l) :
    c ∈ l ∨ c = '\n' := by
  unfold replCR at h
  rcases List.mem_map.mp h with ⟨a, ha, hfa⟩
  by_cases hcr : a = '\r'
  · right; rw [← hfa, if_pos hcr]
  · left; rw [← hfa, if_neg hcr]; exact ha

/-- The CR replace leaves no CR behind. -/
theorem replCR_no_cr (l : List Char) : '\r' ∉ replCR l := by
  intro h
  unfold replCR at h
  rcases List.mem_map.mp h with ⟨a, _, hfa⟩
  by_cases hcr : a = '\r'
  · rw [if_pos hcr] at hfa; cases hfa
  · rw [if_neg hcr] at hfa; exact hcr hfa

/-- The CR replace is the identity on CR-free lists. -/
theorem replCR_id : ∀ l : List Char, '\r' ∉ l → replCR l = l := by
  intro l
  induction l with
  | nil => intro _; rfl
  | cons c t ih =>
      intro h
      have h1 : ¬ c = '\r' := fun hcr => h (by simp [hcr])
      have h2 : '\r' ∉ t := fun hm => h (List.mem_cons_of_mem _ hm)
      show (if c = '\r' then '\n' else c) :: List.map _ t = c :: t
      rw [if_neg h1]
      exact congrArg (c :: ·) (ih h2)

/-- Characters of a digit-context replace come from the input or are the
replacement digit. -/
theorem mem_fixDigitPair (c mid rep : Char) :
    ∀ l, c ∈ fixDigitPair mid rep l → c ∈ l ∨ c = rep := by
  intro l
  induction l using fixDigitPair.induct mid rep with
  | case1 => intro h; cases h
  | case2 d => intro h; rw [fixDigitPair] at h; exact Or.inl h
  | case3 c1 c2 => intro h; rw [fixDigitPair] at h; exact Or.inl h
  | case4 c1 c2 c3 rest hcond ih =>
      intro h
      rw [fixDigitPair, if_pos hcond] at h
      rcases List.mem_cons.mp h with h1 | h2
      · exact Or.inl (by simp [h1])
      · rcases List.mem_cons.mp h2 with h3 | h4
        · exact Or.inr h3
        · rcases List.mem_cons.mp h4 with h5 | h6
          · exact Or.inl (by simp [h5])
          · rcases ih h6 with h7 | h8
            · exact Or.inl (by simp [h7])
            · exact Or.inr h8
  | case5 c1 c2 c3 rest hcond ih =>
      intro h
      rw [fixDigitPair, if_neg hcond] at h
      rcases List.mem_cons.mp h with h1 | h2
      · exact Or.inl (by simp [h1])
      · rcases ih h2 with h3 | h4
        · exact Or.inl (List.mem_cons_of_mem _ h3)
        · exact Or.inr h4

/-- A digit-context replace is the identity when the target letter does
not occur. -/
theorem fixDigitPair_id (mid rep : Char) :
    ∀ l, mid ∉ l → fixDigitPair mid rep l = l := by
  intro l
  induction l using fixDigitPair.induct mid rep with
  | case1 => intro _; rfl
  | case2 d => intro _; rfl
  | case3 c1 c2 => intro _; rfl
  | case4 c1 c2 c3 rest hcond ih =>
      intro h
      exfalso
      apply h
      have hc2 : c2 = mid := by
        rcases Bool.and_eq_true .. |>.mp hcond with ⟨h1, _⟩
        rcases Bool.and_eq_true .. |>.mp h1 with ⟨_, h2⟩
        exact of_decide_eq_true h2
      simp [hc2]
  | case5 c1 c2 c3 rest hcond ih =>
      intro h
      rw [fixDigitPair, if_neg hcond]
      rw [ih (fun hm => h (List.mem_cons_of_mem _ hm))]

/-- Characters of the whitespace collapse come from the input or are
spaces. -/
theorem mem_wsCollapseGo (c : Char) :
    ∀ (l : List Char) (b : Bool), c ∈ wsCollapseGo b l → c ∈ l ∨ c = ' ' := by
  intro l
  induction l with
  | nil => intro b h; cases h
  | cons d rest ih =>
      intro b h
      rw [wsCollapseGo] at h
      by_cases hd : isNNWs d = true
      · rw [if_pos hd] at h
        by_cases hb : b = true
        · rw [if_pos hb] at h
          rcases ih true h with h1 | h2
          · exact Or.inl (List.mem_cons_of_mem _ h1)
          · exact Or.inr h2
        · rw [if_neg hb] at h
          rcases List.mem_cons.mp h with h1 | h2
          · exact Or.inr h1
          · rcases ih true h2 with h3 | h4
            · exact Or.inl (List.mem_cons_of_mem _ h3)
            · exact Or.inr h4
      · rw [if_neg hd] at h
        rcases List.mem_cons.mp h with h1 | h2
        · exact Or.inl (by simp [h1])
        · rcases ih false h2 with h3 | h4
          · exact Or.inl (List.mem_cons_of_mem _ h3)
          · exact Or.inr h4

/-- After a run has been entered, the collapse output starts with a
non-collapsible character. -/
theorem headNotNNWs_wsCollapseGo_true :
    ∀ l : List Char, headNotNNWs (wsCollapseGo true l) = true := by
  intro l
  induction l with
  | nil => rfl
  | cons d rest ih =>
      rw [wsCollapseGo]
      by_cases hd : isNNWs d = true
      · rw [if_pos hd, if_pos rfl]
        exact ih
      · rw [if_neg hd]
        show (!isNNWs d) = true
        simp [hd]

/-- The whitespace collapse establishes its invariant. -/
theorem collapsedOk_wsCollapseGo :
    ∀ (l : List Char) (b : Bool), collapsedOk (wsCollapseGo b l) = true := by
  intro l
  induction l with
  | nil => intro b; rfl
  | cons d rest ih =>
      intro b
      rw [wsCollapseGo]
      by_cases hd : isNNWs d = true
      · rw [if_pos hd]
        by_cases hb : b = true
        · rw [if_pos hb]; exact ih true
        · rw [if_neg hb]
          show collapsedOk (' ' :: wsCollapseGo true rest) = true
          rw [collapsedOk]
          have h1 : isNNWs ' ' = true := by decide
          rw [if_pos h1]
          simp [headNotNNWs_wsCollapseGo_true rest, ih true]
      · rw [if_neg hd]
        rw [collapsedOk]
        rw [if_neg hd]
        simp [ih false]

/-- When the head is non-collapsible the run flag does not matter. -/
theorem wsCollapseGo_flag (l : List Char) (h : headNotNNWs l = true) :
    wsCollapseGo true l = wsCollapseGo false l := by
  cases l with
  | nil => rfl
  | cons c rest =>
      have hc : isNNWs c = false := by
        simpa [headNotNNWs] using h
      rw [wsCollapseGo, wsCollapseGo, if_neg (by simp [hc]), if_neg (by simp [hc])]

/-- The whitespace collapse is the identity on collapsed lists. -/
theorem wsCollapseGo_id_of_ok :
    ∀ l : List Char, collapsedOk l = true → wsCollapseGo false l = l := by
  intro l
  induction l with
  | nil => intro _; rfl
  | cons c rest ih =>
      intro hok
      rw [collapsedOk] at hok
      rcases Bool.and_eq_true .. |>.mp hok with ⟨hhead, htail⟩
      rw [wsCollapseGo]
      by_cases hc : isNNWs c = true
      · rw [if_pos hc]
        rw [if_pos hc] at hhead
        rcases Bool.and_eq_true .. |>.mp hhead with ⟨hsp, hnext⟩
        have hsp2 : c = ' ' := by simpa using hsp
        rw [if_neg (by simp)]
        rw [wsCollapseGo_flag rest hnext, ih htail, hsp2]
      · rw [if_neg hc]
        rw [ih htail]

/-- Filtering is the identity when nothing matches the strip set. -/
theorem ctrlFilter_id (l : List Char) (h : ∀ c ∈ l, isStrippedCtrl c = false) :
    l.filter (fun c => !isStrippedCtrl c) = l := by
  apply List.filter_eq_self.mpr
  intro a ha
  simp [h a ha]

/-- On a letter-and-control-free input the whole cleanup chain is
idempotent at the list level. -/
theorem cleanOcrL_idem (l : List Char)
    (hO : 'O' ∉ l) (hlc : 'l' ∉ l) (hI : 'I' ∉ l)
    (hc : ∀ c ∈ l, isStrippedCtrl c = false) :
    cleanOcrL (cleanOcrL l) = cleanOcrL l := by
  have mem5 : ∀ c, c ∈ fixDigitPair 'I' '1' (fixDigitPair 'l' '1'
      (fixDigitPair 'O' '0' (replCR (replCRLF l)))) →
      c ∈ l ∨ c = '\n' ∨ c = '0' ∨ c = '1' := by
    intro c h5
    rcases mem_fixDigitPair c 'I' '1' _ h5 with h4 | h1a
    · rcases mem_fixDigitPair c 'l' '1' _ h4 with h3 | h1b
      · rcases mem_fixDigitPair c 'O' '0' _ h3 with h2 | h0
        · rcases mem_replCR c _ h2 with h1 | hn
          · rcases mem_replCRLF c _ h1 with hl0 | hn
            · exact Or.inl hl0
            · exact Or.inr (Or.inl hn)
          · exact Or.inr (Or.inl hn)
        · exact Or.inr (Or.inr (Or.inl h0))
      · exact Or.inr (Or.inr (Or.inr h1b))
    · exact Or.inr (Or.inr (Or.inr h1a))
  have mem6 : ∀ c, c ∈ wsCollapseGo false (fixDigitPair 'I' '1' (fixDigitPair 'l' '1'
      (fixDigitPair 'O' '0' (replCR (replCRLF l))))) →
      c ∈ l ∨ c = '\n' ∨ c = '0' ∨ c = '1' ∨ c = ' ' := by
    intro c h6
    rcases mem_wsCollapseGo c _ false h6 with h5 | hsp
    · rcases mem5 c h5 with h | h
      · exact Or.inl h
      · rcases h with h | h | h
        · exact Or.inr (Or.inl h)
        · exact Or.inr (Or.inr (Or.inl h))
        · exact Or.inr (Or.inr (Or.inr (Or.inl h)))
    · exact Or.inr (Or.inr (Or.inr (Or.inr hsp)))
  have hctrl6 : ∀ c ∈ wsCollapseGo false (fixDigitPair 'I' '1' (fixDigitPair 'l' '1'
      (fixDigitPair 'O' '0' (replCR (replCRLF l))))), isStrippedCtrl c = false := by
    intro c h6
    rcases mem6 c h6 with h | h | h | h | h
    · exact hc c h
    · subst h; decide
    · subst h; decide
    · subst h; decide
    · subst h; decide
  have hclean : cleanOcrL l = wsCollapseGo false (fixDigitPair 'I' '1' (fixDigitPair 'l' '1'
      (fixDigitPair 'O' '0' (replCR (replCRLF l))))) := by
    unfold cleanOcrL
    exact ctrlFilter_id _ hctrl6
  have hcr6 : '\r' ∉ wsCollapseGo false (fixDigitPair 'I' '1' (fixDigitPair 'l' '1'
      (fixDigitPair 'O' '0' (replCR (replCRLF l))))) := by
    intro h6
    rcases mem_wsCollapseGo '\r' _ false h6 with h5 | hsp
    · rcases mem_fixDigitPair '\r' 'I' '1' _ h5 with h4 | hbad
      · rcases mem_fixDigitPair '\r' 'l' '1' _ h4 with h3 | hbad
        · rcases mem_fixDigitPair '\r' 'O' '0' _ h3 with h2 | hbad
          · exact replCR_no_cr _ h2
          · cases hbad
        · cases hbad
      · cases hbad
    · cases hsp
  have hO6 : 'O' ∉ wsCollapseGo false (fixDigitPair 'I' '1' (fixDigitPair 'l' '1'
      (fixDigitPair 'O' '0' (replCR (replCRLF l))))) := by
    intro h6
    rcases mem6 'O' h6 with h | h | h | h | h
    · exact hO h
    all_goals cases h
  have hl6 : 'l' ∉ wsCollapseGo false (fixDigitPair 'I' '1' (fixDigitPair 'l' '1'
      (fixDigitPair 'O' '0' (replCR (replCRLF l))))) := by
    intro h6
    rcases mem6 'l' h6 with h | h | h | h | h
    · exact hlc h
    all_goals cases h
  have hI6 : 'I' ∉ wsCollapseGo false (fixDigitPair 'I' '1' (fixDigitPair 'l' '1'
      (fixDigitPair 'O' '0' (replCR (replCRLF l))))) := by
    intro h6
    rcases mem6 'I' h6 with h | h | h | h | h
    · exact hI h
    all_goals cases h
  rw [hclean]
  unfold cleanOcrL
  rw [replCRLF_id _ hcr6, replCR_id _ hcr6, fixDigitPair_id 'O' '0' _ hO6,
    fixDigitPair_id 'l' '1' _ hl6, fixDigitPair_id 'I' '1' _ hI6,
    wsCollapseGo_id_of_ok _ (collapsedOk_wsCollapseGo _ false),
    ctrlFilter_id _ hctrl6]

/-- Claim C4, amended.  `cleanOcrText` is a deterministic pure function
of its input (it is a function of the string alone), and it is
idempotent on every input that contains none of the targeted misread
letters `O`, `l`, `I` and no character of the stripped control range.
(As the counterexample records, overlapping digit-letter-digit contexts
such as `1O2O3` need two passes because a JavaScript global replace
resumes after each match, and a stripped control character between two
spaces leaves a double space behind, so unrestricted idempotence
fails.) -/
theorem cleanOcrText_idempotent_on (s : String)
    (hO : 'O' ∉ s.data) (hlc : 'l' ∉ s.data) (hI : 'I' ∉ s.data)
    (hc : ∀ c ∈ s.data, isStrippedCtrl c = false) :
    cleanOcrText (cleanOcrText s) = cleanOcrText s := by
  show String.mk (cleanOcrL (String.mk (cleanOcrL s.data)).data) =
    String.mk (cleanOcrL s.data)
  rw [show (String.mk (cleanOcrL s.data)).data = cleanOcrL s.data from rfl]
  rw [cleanOcrL_idem s.data hO hlc hI hc]

/-- Witness for C4 at a concrete OCR-ish input (CRLF line break, double
spaces, digits and dashes, no O/l/I letters, no stripped controls). -/
theorem cleanOcrText_idempotent_on_witness :
    ('O' ∉ "14  0184-0008\r\nHWY  85 SW".data) ∧
    cleanOcrText (cleanOcrText "14  0184-0008\r\nHWY  85 SW") =
      cleanOcrText "14  0184-0008\r\nHWY  85 SW" :=
  ⟨by decide,
   cleanOcrText_idempotent_on "14  0184-0008\r\nHWY  85 SW"
     (by decide) (by decide) (by decide) (by decide)⟩

/-- Counterexample to C4 as stated: one pass over `1O2O3` fixes only the
first misread (the global replace resumes after the consumed match), and
a stripped control character sitting between two spaces leaves a double
space that only a second pass collapses — so applying the cleanup twice
differs from applying it once. -/
theorem cleanOcrText_not_idempotent :
    cleanOcrText (cleanOcrText "1O2O3") ≠ cleanOcrText "1O2O3" ∧
    cleanOcrText (cleanOcrText (" " ++ String.singleton (Char.ofNat 1) ++ " ")) ≠
      cleanOcrText (" " ++ String.singleton (Char.ofNat 1) ++ " ") := by decide
